import Mathlib

/-!
Verification of the experiment orchestration and checkpoint engine of a
face-recognition training sweep, shallowly embedded in Lean 4.

Each definition mirrors one Python function or class of the repository:

* `EarlyStopping` and `observe` mirror `src/training_utils.py`
  (`EarlyStopping.__init__`, `EarlyStopping.__call__`).
* The checkpoint-save file-system trace mirrors
  `src/training_utils.py` (`save_checkpoint`).
* The sweep skeleton mirrors
  `src/run_comprehensive_experiment.py`
  (`run_comprehensive_face_recognition_experiment`).
* The fold aggregation mirrors
  `src/run_comprehensive_experiment.py` (`run_cross_validation_for_model`).
* The hyperparameter objective mirrors
  `src/experiment_manager.py` (`HyperparameterExperiment._objective`).
* The configuration store mirrors `src/experiment_manager.py`
  (`ExperimentConfig`: `__init__`, `to_dict`, `from_dict`, `to_yaml`,
  `from_yaml`, `increment_version`, `add_to_history`).
* The rerun planner mirrors `rerun_experiment.py` (`main`, lines 107-186).

Python floats are embedded as rationals; the two infinities used by the
early-stopping monitor are embedded explicitly.
-/

namespace FaceRec

/-- Extended value reachable by the monitor field `best_score` in
`src/training_utils.py`: a finite Python float (embedded as a rational),
`float('inf')`, or `float('-inf')`. -/
inductive PyVal where
  | ninf : PyVal
  | fin : ℚ → PyVal
  | inf : PyVal
deriving DecidableEq, Repr

/-- Subtraction `v - d` of a finite float from a `PyVal`, as Python computes
`self.best_score - self.min_delta`. -/
def pySub (v : PyVal) (d : ℚ) : PyVal :=
  match v with
  | .ninf => .ninf
  | .fin q => .fin (q - d)
  | .inf => .inf

/-- Addition `v + d` of a finite float to a `PyVal`, as Python computes
`self.best_score + self.min_delta`. -/
def pyAdd (v : PyVal) (d : ℚ) : PyVal :=
  match v with
  | .ninf => .ninf
  | .fin q => .fin (q + d)
  | .inf => .inf

/-- Python comparison `s < v` for a finite float `s` and a `PyVal` `v`. -/
def pyLt (s : ℚ) (v : PyVal) : Bool :=
  match v with
  | .ninf => false
  | .fin q => decide (s < q)
  | .inf => true

/-- Python comparison `s > v` for a finite float `s` and a `PyVal` `v`. -/
def pyGt (s : ℚ) (v : PyVal) : Bool :=
  match v with
  | .ninf => true
  | .fin q => decide (q < s)
  | .inf => false

/-- The two supported monitor modes; `EarlyStopping.__init__` raises on any
other mode string, so only these two states are representable. -/
inductive ESMode where
  | min : ESMode
  | max : ESMode
deriving DecidableEq, Repr

/-- State of the early-stopping monitor, mirroring the attributes set by
`EarlyStopping.__init__` in `src/training_utils.py`. -/
structure EarlyStopping where
  patience : ℕ
  min_delta : ℚ
  counter : ℕ
  mode : ESMode
  early_stop : Bool
  esTrace : List ℚ
  best_score : PyVal
deriving DecidableEq, Repr

/-- `EarlyStopping.__init__`: counter 0, flag cleared, empty trace, and the
mode-dependent initial `best_score` (`inf` for min, `-inf` for max). -/
def ESinit (patience : ℕ) (min_delta : ℚ) (mode : ESMode) : EarlyStopping :=
  { patience := patience
    min_delta := min_delta
    counter := 0
    mode := mode
    early_stop := false
    esTrace := []
    best_score := match mode with | .min => .inf | .max => .ninf }

/-- The improvement test `self.val_comp(score)` installed by
`EarlyStopping.__init__`: `score < best_score - min_delta` in min mode,
`score > best_score + min_delta` in max mode. -/
def EarlyStopping.improved (es : EarlyStopping) (s : ℚ) : Bool :=
  match es.mode with
  | .min => pyLt s (pySub es.best_score es.min_delta)
  | .max => pyGt s (pyAdd es.best_score es.min_delta)

/-- `EarlyStopping.__call__(val_score)`: append the score to the trace; on
improvement record the new best, reset the counter and return `true`;
otherwise bump the counter, set `early_stop` once it reaches the patience,
and return `false`. -/
def observe (es : EarlyStopping) (s : ℚ) : EarlyStopping × Bool :=
  let es := { es with esTrace := es.esTrace ++ [s] }
  if es.improved s then
    ({ es with best_score := .fin s, counter := 0 }, true)
  else
    let c := es.counter + 1
    ({ es with
        counter := c
        early_stop := if es.patience ≤ c then true else es.early_stop }, false)

/-- Feed a whole score sequence to the monitor, returning the final state and
the list of booleans returned by the successive `observe` calls. -/
def runES (es : EarlyStopping) : List ℚ → EarlyStopping × List Bool
  | [] => (es, [])
  | s :: rest =>
    let step := observe es s
    let r := runES step.1 rest
    (r.1, step.2 :: r.2)

lemma observe_patience (es : EarlyStopping) (s : ℚ) :
    (observe es s).1.patience = es.patience := by
  unfold observe
  dsimp only
  split <;> rfl

lemma observe_trace (es : EarlyStopping) (s : ℚ) :
    (observe es s).1.esTrace = es.esTrace ++ [s] := by
  unfold observe
  dsimp only
  split <;> rfl

lemma runES_trace (scores : List ℚ) : ∀ es : EarlyStopping,
    (runES es scores).1.esTrace = es.esTrace ++ scores := by
  induction scores with
  | nil => intro es; simp [runES]
  | cons s rest ih =>
    intro es
    simp only [runES]
    rw [ih, observe_trace]
    simp

lemma runES_length (es : EarlyStopping) (scores : List ℚ) :
    (runES es scores).2.length = scores.length := by
  induction scores generalizing es with
  | nil => simp [runES]
  | cons s rest ih => simp [runES, ih]

lemma improved_set_trace (es : EarlyStopping) (t : List ℚ) (s : ℚ) :
    ({ es with esTrace := t } : EarlyStopping).improved s = es.improved s := rfl

lemma observe_of_improved (es : EarlyStopping) (s : ℚ) (h : es.improved s = true) :
    observe es s =
      ({ es with esTrace := es.esTrace ++ [s], best_score := .fin s, counter := 0 },
        true) := by
  unfold observe
  simp [improved_set_trace, h]

lemma observe_of_not_improved (es : EarlyStopping) (s : ℚ) (h : es.improved s = false) :
    observe es s =
      ({ es with
          esTrace := es.esTrace ++ [s]
          counter := es.counter + 1
          early_stop := if es.patience ≤ es.counter + 1 then true else es.early_stop },
        false) := by
  unfold observe
  simp [improved_set_trace, h]

lemma replicate_false_prefix_mono {k p : ℕ} {bs : List Bool}
    (hk : List.replicate k false <+: bs) (hpk : p ≤ k) :
    List.replicate p false <+: bs := by
  refine List.IsPrefix.trans ?_ hk
  exact ⟨List.replicate (k - p) false, by rw [← List.replicate_add, Nat.add_sub_cancel' hpk]⟩

/-- From any monitor state whose counter is still below the patience whenever
the flag is clear, the flag ends up set exactly when either it was already
set, or an all-false span of the produced return flags (possibly continuing
the carried-in counter at the front) reaches the patience. -/
lemma runES_early_stop_iff (scores : List ℚ) : ∀ es : EarlyStopping,
    1 ≤ es.patience →
    (es.early_stop = false → es.counter < es.patience) →
    ((runES es scores).1.early_stop = true ↔
      es.early_stop = true
      ∨ (∃ k, 1 ≤ k ∧ List.replicate k false <+: (runES es scores).2 ∧
          es.patience ≤ es.counter + k)
      ∨ List.replicate es.patience false <:+: (runES es scores).2) := by
  induction scores with
  | nil =>
    intro es hp _
    simp only [runES]
    constructor
    · intro h; exact Or.inl h
    · rintro (h | ⟨k, hk1, hkpre, _⟩ | hinf)
      · exact h
      · rw [List.prefix_nil] at hkpre
        simp [List.replicate_eq_nil_iff] at hkpre
        omega
      · rw [List.infix_nil] at hinf
        simp [List.replicate_eq_nil_iff] at hinf
        omega
  | cons s rest ih =>
    intro es hp hinv
    by_cases h : es.improved s = true
    · -- improvement: counter reset, flag untouched, `true` emitted
      have hobs := observe_of_improved es s h
      simp only [runES, hobs]
      set es1 : EarlyStopping :=
        { es with esTrace := es.esTrace ++ [s], best_score := .fin s, counter := 0 } with hes1
      have hIH := ih es1 hp (by intro _; simpa [hes1] using hp)
      set bs := (runES es1 rest).2 with hbs
      rw [hIH]
      have hmid : (∃ k, 1 ≤ k ∧ List.replicate k false <+: bs ∧ es.patience ≤ 0 + k) →
          List.replicate es.patience false <:+: bs := by
        rintro ⟨k, _, hkpre, hkp⟩
        exact (replicate_false_prefix_mono hkpre (by omega)).isInfix
      constructor
      · rintro (h0 | hmidc | hinf)
        · exact Or.inl h0
        · exact Or.inr (Or.inr (List.infix_cons (hmid (by simpa [hes1] using hmidc))))
        · exact Or.inr (Or.inr (List.infix_cons hinf))
      · rintro (h0 | ⟨k, hk1, hkpre, _⟩ | hinf)
        · exact Or.inl h0
        · exfalso
          obtain ⟨k0, rfl⟩ : ∃ k0, k = k0 + 1 := ⟨k - 1, by omega⟩
          rw [List.replicate_succ] at hkpre
          exact (Bool.false_ne_true) (List.cons_prefix_cons.mp hkpre).1
        · rcases List.infix_cons_iff.mp hinf with hpre | hinf2
          · exfalso
            obtain ⟨p0, hp0⟩ : ∃ p0, es.patience = p0 + 1 := ⟨es.patience - 1, by omega⟩
            rw [hp0, List.replicate_succ] at hpre
            exact (Bool.false_ne_true) (List.cons_prefix_cons.mp hpre).1
          · exact Or.inr (Or.inr (by simpa [hes1] using hinf2))
    · -- no improvement: counter bumped, maybe the flag set, `false` emitted
      rw [Bool.not_eq_true] at h
      have hobs := observe_of_not_improved es s h
      simp only [runES, hobs]
      set es1 : EarlyStopping :=
        { es with
          esTrace := es.esTrace ++ [s]
          counter := es.counter + 1
          early_stop := if es.patience ≤ es.counter + 1 then true else es.early_stop }
        with hes1
      have hinv1 : es1.early_stop = false → es1.counter < es1.patience := by
        intro hmk
        simp only [hes1] at hmk ⊢
        by_cases hle : es.patience ≤ es.counter + 1
        · simp [hle] at hmk
        · omega
      have hIH := ih es1 hp hinv1
      set bs := (runES es1 rest).2 with hbs
      rw [hIH]
      have hes1p : es1.patience = es.patience := rfl
      have hes1c : es1.counter = es.counter + 1 := rfl
      constructor
      · rintro (h0 | ⟨k, hk1, hkpre, hkp⟩ | hinf)
        · simp only [hes1] at h0
          by_cases hle : es.patience ≤ es.counter + 1
          · refine Or.inr (Or.inl ⟨1, le_refl 1, ?_, by omega⟩)
            exact ⟨bs, by simp [List.replicate_succ]⟩
          · simp [hle] at h0
            exact Or.inl h0
        · refine Or.inr (Or.inl ⟨k + 1, by omega, ?_, by
            rw [hes1p, hes1c] at hkp; omega⟩)
          rw [List.replicate_succ]
          exact List.cons_prefix_cons.mpr ⟨rfl, hkpre⟩
        · rw [hes1p] at hinf
          exact Or.inr (Or.inr (List.infix_cons hinf))
      · rintro (h0 | ⟨k, hk1, hkpre, hkp⟩ | hinf)
        · refine Or.inl ?_
          simp only [hes1]
          by_cases hle : es.patience ≤ es.counter + 1
          · simp [hle]
          · simpa [hle] using h0
        · obtain ⟨k0, rfl⟩ : ∃ k0, k = k0 + 1 := ⟨k - 1, by omega⟩
          rw [List.replicate_succ] at hkpre
          have hkpre2 := (List.cons_prefix_cons.mp hkpre).2
          by_cases hk0 : 1 ≤ k0
          · exact Or.inr (Or.inl ⟨k0, hk0, hkpre2, by rw [hes1p, hes1c]; omega⟩)
          · have : k0 = 0 := by omega
            subst this
            refine Or.inl ?_
            simp only [hes1]
            have : es.patience ≤ es.counter + 1 := by omega
            simp [this]
        · rcases List.infix_cons_iff.mp hinf with hpre | hinf2
          · obtain ⟨p0, hp0⟩ : ∃ p0, es.patience = p0 + 1 := ⟨es.patience - 1, by omega⟩
            rw [hp0, List.replicate_succ] at hpre
            have hpre2 := (List.cons_prefix_cons.mp hpre).2
            by_cases hp0' : 1 ≤ p0
            · exact Or.inr (Or.inl ⟨p0, hp0', hpre2, by rw [hes1p, hes1c]; omega⟩)
            · have : p0 = 0 := by omega
              subst this
              refine Or.inl ?_
              simp only [hes1]
              have : es.patience ≤ es.counter + 1 := by omega
              simp [this]
          · rw [hes1p] at hinf2
            exact Or.inr (Or.inr hinf2)

/-- C2: for every patience (at least 1), min_delta, mode in {min, max} and
every finite score sequence, each observe call computes improvement as
`score < best_score - min_delta` (mode=min) or
`score > best_score + min_delta` (mode=max); on improvement it sets
`best_score` to the score, resets the counter to 0 and returns true,
otherwise it increments the counter (setting `early_stop` once the counter
reaches the patience) and returns false; after running the sequence,
`early_stop` is true if and only if `patience` consecutive non-improving
observations occurred, and the trace is exactly the submitted sequence, so
its length equals the number of observe calls. -/
theorem earlyStopping_monitor_spec
    (p : ℕ) (hp : 1 ≤ p) (δ : ℚ) (m : ESMode) (scores : List ℚ) :
    (∀ (es : EarlyStopping) (s : ℚ),
      ((observe es s).2 = true ↔
        (match es.mode with
          | ESMode.min => pyLt s (pySub es.best_score es.min_delta)
          | ESMode.max => pyGt s (pyAdd es.best_score es.min_delta)) = true)
      ∧ ((observe es s).2 = true →
          (observe es s).1.best_score = PyVal.fin s ∧ (observe es s).1.counter = 0)
      ∧ ((observe es s).2 = false →
          (observe es s).1.counter = es.counter + 1
          ∧ (observe es s).1.best_score = es.best_score
          ∧ (observe es s).1.early_stop =
              (if es.patience ≤ es.counter + 1 then true else es.early_stop)))
    ∧ ((runES (ESinit p δ m) scores).1.early_stop = true ↔
        List.replicate p false <:+: (runES (ESinit p δ m) scores).2)
    ∧ (runES (ESinit p δ m) scores).1.esTrace = scores
    ∧ (runES (ESinit p δ m) scores).2.length = scores.length := by
  refine ⟨?_, ?_, ?_, runES_length _ _⟩
  · intro es s
    by_cases h : es.improved s = true
    · rw [observe_of_improved es s h]
      refine ⟨?_, fun _ => ⟨rfl, rfl⟩, fun hf => by simp at hf⟩
      simpa [EarlyStopping.improved] using h
    · rw [Bool.not_eq_true] at h
      rw [observe_of_not_improved es s h]
      refine ⟨?_, fun ht => by simp at ht, fun _ => ⟨rfl, rfl, rfl⟩⟩
      constructor
      · intro hf; simp at hf
      · intro hc
        exfalso
        rw [show ((match es.mode with
          | ESMode.min => pyLt s (pySub es.best_score es.min_delta)
          | ESMode.max => pyGt s (pyAdd es.best_score es.min_delta)) = es.improved s)
          from rfl] at hc
        rw [h] at hc
        exact Bool.false_ne_true hc
  · have h0 := runES_early_stop_iff scores (ESinit p δ m) (by simpa [ESinit] using hp)
      (by intro _; simpa [ESinit] using hp)
    rw [h0]
    constructor
    · rintro (h1 | ⟨k, _, hkpre, hkp⟩ | hinf)
      · simp [ESinit] at h1
      · exact (replicate_false_prefix_mono hkpre (by simp [ESinit] at hkp; omega)).isInfix
      · simpa [ESinit] using hinf
    · intro hinf
      exact Or.inr (Or.inr (by simpa [ESinit] using hinf))
  · rw [runES_trace]
    simp [ESinit]

/-- Witness for C2: patience 2, min mode, scores `[1, 2, 3]` (call 1 improves
from infinity, calls 2 and 3 do not, so the monitor stops). -/
theorem earlyStopping_monitor_spec_witness :
    1 ≤ 2 ∧
      ((runES (ESinit 2 0 ESMode.min) [1, 2, 3]).1.early_stop = true ↔
        List.replicate 2 false <:+: (runES (ESinit 2 0 ESMode.min) [1, 2, 3]).2) ∧
      (runES (ESinit 2 0 ESMode.min) [1, 2, 3]).1.esTrace = [1, 2, 3] :=
  ⟨by decide, (earlyStopping_monitor_spec 2 (by decide) 0 ESMode.min [1, 2, 3]).2.1,
    (earlyStopping_monitor_spec 2 (by decide) 0 ESMode.min [1, 2, 3]).2.2.1⟩

/-!
Checkpoint store (`save_checkpoint` in `src/training_utils.py`): the body
performs `checkpoint_dir.mkdir(parents=True, exist_ok=True)`, then a single
`torch.save(checkpoint, checkpoint_dir / filename)` directly on the final
path, then (when `keep_best_only`) `prune_checkpoints`, which removes files.
We embed the save as the trace of file-system operations it issues, and an
interruption as stopping after some prefix of the trace, with a write
interrupted midway leaving a half-written file at its target path.
-/

/-- A file-system path, as a list of segments. -/
abbrev FPath := List String

/-- Data at a path: either a half-written file (a write was interrupted
partway through) or a completely written payload. -/
inductive FileData where
  | halfWritten : FileData
  | full : ℕ → FileData
deriving DecidableEq, Repr

/-- One file-system operation issued by the checkpoint store. -/
inductive FSOp where
  | mkdirP : FPath → FSOp
  | write : FPath → ℕ → FSOp
  | rename : FPath → FPath → FSOp
  | removeFile : FPath → FSOp
deriving DecidableEq, Repr

/-- File store: an association of paths to file data. -/
abbrev FS := List (FPath × FileData)

/-- Look a path up in the store. -/
def lookupF : FS → FPath → Option FileData
  | [], _ => none
  | (q, d) :: rest, p => if q = p then some d else lookupF rest p

/-- Remove a path from the store. -/
def removeF (fs : FS) (p : FPath) : FS :=
  fs.filter (fun e => decide (e.1 ≠ p))

/-- Set a path in the store. -/
def setF (fs : FS) (p : FPath) (d : FileData) : FS :=
  (p, d) :: removeF fs p

/-- Effect of one completed operation. -/
def applyOp (fs : FS) : FSOp → FS
  | .mkdirP _ => fs
  | .write p b => setF fs p (.full b)
  | .rename src dst =>
    match lookupF fs src with
    | some d => setF (removeF fs src) dst d
    | none => fs
  | .removeFile p => removeF fs p

/-- Effect of a completed operation sequence. -/
def runOps (fs : FS) : List FSOp → FS
  | [] => fs
  | op :: rest => runOps (applyOp fs op) rest

/-- Effect of an operation that was interrupted while in progress: an
interrupted write leaves a half-written file at its target; the other
operations are atomic metadata updates. -/
def interruptOp (fs : FS) : FSOp → FS
  | .write p _ => setF fs p .halfWritten
  | op => applyOp fs op

/-- State after the process is killed during an operation sequence: the
first `k` operations completed and the next one, if any, was interrupted
while in progress. -/
def runInterrupted (fs : FS) (ops : List FSOp) (k : ℕ) : FS :=
  let fs1 := runOps fs (ops.take k)
  match ops.drop k with
  | [] => fs1
  | op :: _ => interruptOp fs1 op

/-- Trace of file-system operations issued by `save_checkpoint`
(`src/training_utils.py` lines 200-232): ensure the directory, write the
serialized checkpoint dictionary (an opaque payload `blob`) directly to
`checkpoint_dir / filename` with a single `torch.save`, then, when
`keep_best_only` is set, let `prune_checkpoints` delete the files it
selects (`pruned`, determined by glob and modification times, which are
environmental inputs here). -/
def saveCheckpointOps (checkpoint_dir : FPath) (filename : String) (blob : ℕ)
    (keep_best_only : Bool) (pruned : List FPath) : List FSOp :=
  [FSOp.mkdirP checkpoint_dir, FSOp.write (checkpoint_dir ++ [filename]) blob]
    ++ (if keep_best_only then pruned.map FSOp.removeFile else [])

/-- C3 as claimed: no interruption point of any checkpoint save leaves a
half-written file at the path that `load_checkpoint` would read. -/
def saveIsAtomic : Prop :=
  ∀ (dir : FPath) (filename : String) (blob : ℕ) (keep_best_only : Bool)
    (pruned : List FPath) (fs : FS) (k : ℕ),
    lookupF (runInterrupted fs (saveCheckpointOps dir filename blob keep_best_only pruned) k)
        (dir ++ [filename]) ≠ some FileData.halfWritten

lemma lookupF_removeF (fs : FS) (p q : FPath) :
    lookupF (removeF fs p) q = if p = q then none else lookupF fs q := by
  induction fs with
  | nil => simp [removeF, lookupF]
  | cons e rest ih =>
    by_cases hep : e.1 = p
    · have hstep : removeF (e :: rest) p = removeF rest p := by
        simp [removeF, List.filter_cons, hep]
      rw [hstep, ih]
      by_cases hpq : p = q
      · simp [hpq]
      · have heq : e.1 ≠ q := by rw [hep]; exact hpq
        simp [hpq, lookupF, heq]
    · have hstep : removeF (e :: rest) p = e :: removeF rest p := by
        simp [removeF, List.filter_cons, hep]
      rw [hstep]
      by_cases heq : e.1 = q
      · have hpq : p ≠ q := fun h => hep (heq.trans h.symm)
        simp [lookupF, heq, hpq]
      · simp [lookupF, heq, ih]

lemma lookupF_setF (fs : FS) (p q : FPath) (d : FileData) :
    lookupF (setF fs p d) q = if p = q then some d else lookupF fs q := by
  simp only [setF, lookupF, lookupF_removeF]
  by_cases h : p = q <;> simp [h]

lemma runOps_removes (pruned : List FPath) : ∀ (fs : FS) (q : FPath), q ∉ pruned →
    lookupF (runOps fs (pruned.map FSOp.removeFile)) q = lookupF fs q := by
  induction pruned with
  | nil => intro fs q _; simp [runOps]
  | cons p rest ih =>
    intro fs q hq
    simp only [List.map, runOps, applyOp]
    rw [ih _ _ (by simp at hq; exact hq.2), lookupF_removeF]
    have : p ≠ q := by simp at hq; exact fun h => hq.1 h.symm
    simp [this]

/-- C3 counterexample: the claim is false as stated. Interrupting the save
of `checkpoints/checkpoint_epoch_1.pth` (payload 7) during its single write
leaves a half-written file at exactly the path load reads, because
`save_checkpoint` writes the final path directly with no temporary file or
rename. -/
theorem save_checkpoint_not_atomic_counterexample : ¬ saveIsAtomic := by
  intro h
  have := h ["checkpoints"] "checkpoint_epoch_1.pth" 7 false [] [] 1
  simp [saveCheckpointOps, runInterrupted, runOps, applyOp, interruptOp,
    setF, removeF, lookupF] at this

/-- C3 amended: `save_checkpoint` issues no rename at all and writes the
serialized checkpoint directly to `checkpoint_dir / filename`, the very path
load reads; an uninterrupted save (with that path not pruned) leaves the
complete payload there, while interrupting the save during its write leaves
a half-written file at that same path. -/
theorem save_checkpoint_direct_write_spec
    (dir : FPath) (filename : String) (blob : ℕ) (keep_best_only : Bool)
    (pruned : List FPath) (fs : FS)
    (hnp : (dir ++ [filename]) ∉ pruned) :
    lookupF (runOps fs (saveCheckpointOps dir filename blob keep_best_only pruned))
        (dir ++ [filename]) = some (FileData.full blob)
    ∧ FSOp.write (dir ++ [filename]) blob
        ∈ saveCheckpointOps dir filename blob keep_best_only pruned
    ∧ (∀ op ∈ saveCheckpointOps dir filename blob keep_best_only pruned,
        ∀ a b, op ≠ FSOp.rename a b)
    ∧ lookupF
        (runInterrupted fs (saveCheckpointOps dir filename blob keep_best_only pruned) 1)
        (dir ++ [filename]) = some FileData.halfWritten := by
  refine ⟨?_, ?_, ?_, ?_⟩
  · cases keep_best_only
    · simp [saveCheckpointOps, runOps, applyOp, lookupF_setF]
    · simp only [saveCheckpointOps, List.cons_append, List.nil_append, runOps, applyOp]
      simp only [if_true, Bool.true_eq, List.append_eq, List.nil_append]
      rw [runOps_removes pruned _ _ hnp, lookupF_setF]
      simp
  · simp [saveCheckpointOps]
  · intro op hop a b
    cases keep_best_only
    · simp [saveCheckpointOps] at hop
      rcases hop with h1 | h1 <;> simp [h1]
    · simp [saveCheckpointOps] at hop
      rcases hop with h1 | h1 | ⟨pth, _, hp⟩
      · simp [h1]
      · simp [h1]
      · simp [← hp]
  · cases keep_best_only
    · simp [saveCheckpointOps, runInterrupted, runOps, applyOp, interruptOp, lookupF_setF]
    · simp [saveCheckpointOps, runInterrupted, runOps, applyOp, interruptOp, lookupF_setF]

/-- Witness for the amended C3 theorem at a concrete save. -/
theorem save_checkpoint_direct_write_spec_witness :
    (["checkpoints", "best_model.pth"] ∉ ([["old.pth"]] : List FPath))
    ∧ lookupF (runOps [] (saveCheckpointOps ["checkpoints"] "best_model.pth" 3 true [["old.pth"]]))
        ["checkpoints", "best_model.pth"] = some (FileData.full 3) :=
  ⟨by decide,
    (save_checkpoint_direct_write_spec ["checkpoints"] "best_model.pth" 3 true
      [["old.pth"]] [] (by decide)).1⟩

/-!
Cross-validation aggregation (`run_cross_validation_for_model` in
`src/run_comprehensive_experiment.py`, lines 1283-1527). Each fold body runs
under a `try` block; a fold that raises is skipped with `continue` and
nothing is appended to `fold_results`. After the loop, if `fold_results` is
empty the function returns `None`; otherwise, for each of the four fixed
metric names, the values `fold["test_metrics"][0].get(metric, 0)` are taken
over the folds whose `test_metrics` key is present and non-empty, and their
mean and `np.std` (population standard deviation) are recorded.
-/

/-- Look a metric up in a metrics dictionary (first binding wins, as in a
Python dict embedded as an association list with unique keys). -/
def metricGet : List (String × ℚ) → String → Option ℚ
  | [], _ => none
  | (k, v) :: rest, m => if k = m then some v else metricGet rest m

/-- One fold result as consumed by the aggregation: the value of its
`test_metrics` key (`none` when the key is absent), a list of metric
dictionaries. -/
structure FoldRes where
  test_metrics : Option (List (List (String × ℚ)))
deriving DecidableEq, Repr

/-- Python guard `"test_metrics" in fold and fold["test_metrics"]`: the key
is present and the list is non-empty (truthy). -/
def foldHasMetrics (f : FoldRes) : Bool :=
  match f.test_metrics with
  | some (_ :: _) => true
  | _ => false

/-- The list comprehension
`[fold["test_metrics"][0].get(metric, 0) for fold in fold_results if ...]`. -/
def valuesFor (m : String) (fold_results : List FoldRes) : List ℚ :=
  fold_results.filterMap (fun f =>
    match f.test_metrics with
    | some (d :: _) => some ((metricGet d m).getD 0)
    | _ => none)

/-- Python `sum(values) / len(values)`. -/
def qMean (l : List ℚ) : ℚ := l.sum / l.length

/-- Population variance, the square of `np.std` (default `ddof=0`). -/
def qPopVar (l : List ℚ) : ℚ := ((l.map (fun x => (x - qMean l) ^ 2)).sum) / l.length

/-- The value `np.std(values)` recorded under `<metric>_std`. -/
noncomputable def npStd (l : List ℚ) : ℝ := Real.sqrt ((qPopVar l : ℚ) : ℝ)

/-- The four metric names aggregated by the runner. -/
def cvMetricNames : List String := ["accuracy", "precision", "recall", "f1"]

/-- Aggregated output: the retained fold list (`cross_validation.folds`),
and per metric the recorded mean and the variance whose square root `np.std`
reports. -/
structure CVAggregate where
  folds : List FoldRes
  aggMean : List (String × ℚ)
  aggVar : List (String × ℚ)
deriving DecidableEq, Repr

/-- The fold loop and aggregation of `run_cross_validation_for_model`: a
fold given as `none` raised and is skipped (`continue`); with no surviving
fold the function returns `None`; otherwise each fixed metric with a
non-empty value list gets its mean and standard deviation recorded. -/
def cvAggregate (folds : List (Option FoldRes)) : Option CVAggregate :=
  let fold_results := folds.filterMap id
  match fold_results with
  | [] => none
  | _ =>
    some
      { folds := fold_results
        aggMean := cvMetricNames.filterMap (fun m =>
          match valuesFor m fold_results with
          | [] => none
          | vs => some (m, qMean vs))
        aggVar := cvMetricNames.filterMap (fun m =>
          match valuesFor m fold_results with
          | [] => none
          | vs => some (m, qPopVar vs)) }

/-- Boolean test that a successful fold carries metric `m`: its
`test_metrics` is a non-empty list whose first dictionary binds `m`. -/
def metricPresentB (f : FoldRes) (m : String) : Bool :=
  match f.test_metrics with
  | some (d :: _) => (metricGet d m).isSome
  | _ => false

/-- C6 as claimed (the aggregation clause): a metric is aggregated only when
it is present in every successful fold. -/
def cvClaimOnlyCommonMetrics : Prop :=
  ∀ (folds : List (Option FoldRes)) (ag : CVAggregate),
    cvAggregate folds = some ag →
    ∀ m x, (m, x) ∈ ag.aggMean →
      ∀ f ∈ folds.filterMap id, metricPresentB f m = true

/-- C6 counterexample: with two successful folds, one reporting
`accuracy = 4/5` and one whose metrics dictionary is empty, the code still
aggregates `accuracy` (the missing value defaults to `0`, so the recorded
mean is `2/5`), even though the metric is not present in every successful
fold; and no failed-fold identity is recorded anywhere in the output. -/
theorem cv_aggregation_counterexample : ¬ cvClaimOnlyCommonMetrics := by
  intro h
  have hagg : cvAggregate [some ⟨some [[("accuracy", 4/5)]]⟩, some ⟨some [[]]⟩] =
      some
        { folds := [⟨some [[("accuracy", 4/5)]]⟩, ⟨some [[]]⟩]
          aggMean := [("accuracy", 2/5), ("precision", 0), ("recall", 0), ("f1", 0)]
          aggVar := [("accuracy", 4/25), ("precision", 0), ("recall", 0), ("f1", 0)] } := by
    simp [cvAggregate, cvMetricNames, valuesFor, metricGet, qMean, qPopVar]
    norm_num
  have := h _ _ hagg "accuracy" (2/5) (by simp)
    ⟨some [[]]⟩ (by simp)
  simp [metricPresentB, metricGet] at this

/-- C6 amended: a fold that raises is skipped without aborting the remaining
folds (deleting a raised fold from the input leaves the aggregate
unchanged); the mean and the population standard deviation are computed over
the successful folds for the four fixed metric names with a missing metric
value contributing 0 (no fold-level failures list is produced); on the
example per-fold accuracies [0.80, 0.82, 0.78, 0.81, 0.79] the recorded mean
is 0.80 and `np.std` is the square root of the population variance 1/5000;
and when fold 3 raises, the aggregate is computed over the remaining 4 folds
(mean 0.805). -/
theorem cv_aggregation_spec :
    (∀ (xs ys : List (Option FoldRes)), cvAggregate (xs ++ none :: ys) = cvAggregate (xs ++ ys))
    ∧ cvAggregate
        [some ⟨some [[("accuracy", 4/5)]]⟩, some ⟨some [[("accuracy", 41/50)]]⟩,
          some ⟨some [[("accuracy", 39/50)]]⟩, some ⟨some [[("accuracy", 81/100)]]⟩,
          some ⟨some [[("accuracy", 79/100)]]⟩] =
      some
        { folds := [⟨some [[("accuracy", 4/5)]]⟩, ⟨some [[("accuracy", 41/50)]]⟩,
            ⟨some [[("accuracy", 39/50)]]⟩, ⟨some [[("accuracy", 81/100)]]⟩,
            ⟨some [[("accuracy", 79/100)]]⟩]
          aggMean := [("accuracy", 4/5), ("precision", 0), ("recall", 0), ("f1", 0)]
          aggVar := [("accuracy", 1/5000), ("precision", 0), ("recall", 0), ("f1", 0)] }
    ∧ npStd [4/5, 41/50, 39/50, 81/100, 79/100] = Real.sqrt ((1 : ℝ)/5000)
    ∧ cvAggregate
        [some ⟨some [[("accuracy", 4/5)]]⟩, some ⟨some [[("accuracy", 41/50)]]⟩, none,
          some ⟨some [[("accuracy", 81/100)]]⟩, some ⟨some [[("accuracy", 79/100)]]⟩] =
      some
        { folds := [⟨some [[("accuracy", 4/5)]]⟩, ⟨some [[("accuracy", 41/50)]]⟩,
            ⟨some [[("accuracy", 81/100)]]⟩, ⟨some [[("accuracy", 79/100)]]⟩]
          aggMean := [("accuracy", 161/200), ("precision", 0), ("recall", 0), ("f1", 0)]
          aggVar := [("accuracy", 1/8000), ("precision", 0), ("recall", 0), ("f1", 0)] } := by
  refine ⟨?_, ?_, ?_, ?_⟩
  · intro xs ys
    simp [cvAggregate, List.filterMap_append]
  · simp [cvAggregate, cvMetricNames, valuesFor, metricGet, qMean, qPopVar]
    norm_num
  · have hv : qPopVar [4/5, 41/50, 39/50, 81/100, 79/100] = 1/5000 := by
      simp [qPopVar, qMean]
      norm_num
    rw [npStd, hv]
    norm_num
  · simp [cvAggregate, cvMetricNames, valuesFor, metricGet, qMean, qPopVar]
    norm_num

/-!
Config store (`ExperimentConfig` in `src/experiment_manager.py`). Serialized
configurations are JSON/YAML-able values; we embed them as an inductive
`Value` type, dictionaries being association lists in key order (Python
dicts preserve insertion order and the dictionaries produced by `to_dict`
have unique keys).
-/

/-- A JSON/YAML-able Python value. -/
inductive Value where
  | vNull : Value
  | vBool : Bool → Value
  | vInt : Int → Value
  | vRat : ℚ → Value
  | vStr : String → Value
  | vList : List Value → Value
  | vDict : List (String × Value) → Value

/-- Dictionary lookup (first binding wins). -/
def dictGet : List (String × Value) → String → Option Value
  | [], _ => none
  | (k, v) :: rest, key => if k = key then some v else dictGet rest key

/-- Python `dict.get(key, default)`. -/
def dictGetD (d : List (String × Value)) (key : String) (dflt : Value) : Value :=
  (dictGet d key).getD dflt

/-- Python `dict.pop(key, None)`: the dictionary without that key. -/
def eraseKey (d : List (String × Value)) (key : String) : List (String × Value) :=
  d.filter (fun kv => decide (kv.1 ≠ key))

/-- `ExperimentConfig.Dataset`. -/
inductive DatasetE where
  | DATASET1 | DATASET2 | BOTH
deriving DecidableEq, Repr

/-- Enum member values of `ExperimentConfig.Dataset`. -/
def DatasetE.val : DatasetE → String
  | .DATASET1 => "dataset1"
  | .DATASET2 => "dataset2"
  | .BOTH => "both"

/-- Python `ExperimentConfig.Dataset(s)`: the member with value `s`. -/
def DatasetE.ofString (s : String) : Option DatasetE :=
  if s = "dataset1" then some .DATASET1
  else if s = "dataset2" then some .DATASET2
  else if s = "both" then some .BOTH
  else none

/-- `ExperimentConfig.ModelArchitecture`. -/
inductive ArchE where
  | BASELINE | CNN | SIAMESE | ATTENTION | ARCFACE | HYBRID
deriving DecidableEq, Repr

/-- Enum member values of `ExperimentConfig.ModelArchitecture`. -/
def ArchE.val : ArchE → String
  | .BASELINE => "baseline"
  | .CNN => "cnn"
  | .SIAMESE => "siamese"
  | .ATTENTION => "attention"
  | .ARCFACE => "arcface"
  | .HYBRID => "hybrid"

/-- Python `ExperimentConfig.ModelArchitecture(s)`. -/
def ArchE.ofString (s : String) : Option ArchE :=
  if s = "baseline" then some .BASELINE
  else if s = "cnn" then some .CNN
  else if s = "siamese" then some .SIAMESE
  else if s = "attention" then some .ATTENTION
  else if s = "arcface" then some .ARCFACE
  else if s = "hybrid" then some .HYBRID
  else none

/-- `ExperimentConfig.LRSchedulerType`. -/
inductive SchedE where
  | NONE | STEP | EXPONENTIAL | COSINE | REDUCE_ON_PLATEAU | ONE_CYCLE
deriving DecidableEq, Repr

/-- Enum member values of `ExperimentConfig.LRSchedulerType`. -/
def SchedE.val : SchedE → String
  | .NONE => "none"
  | .STEP => "step"
  | .EXPONENTIAL => "exponential"
  | .COSINE => "cosine"
  | .REDUCE_ON_PLATEAU => "reduce_on_plateau"
  | .ONE_CYCLE => "one_cycle"

/-- Python `ExperimentConfig.LRSchedulerType(s)`. -/
def SchedE.ofString (s : String) : Option SchedE :=
  if s = "none" then some .NONE
  else if s = "step" then some .STEP
  else if s = "exponential" then some .EXPONENTIAL
  else if s = "cosine" then some .COSINE
  else if s = "reduce_on_plateau" then some .REDUCE_ON_PLATEAU
  else if s = "one_cycle" then some .ONE_CYCLE
  else none

/-- `ExperimentConfig.EvaluationMode`. -/
inductive EvalModeE where
  | STANDARD | ENHANCED
deriving DecidableEq, Repr

/-- Enum member values of `ExperimentConfig.EvaluationMode`. -/
def EvalModeE.val : EvalModeE → String
  | .STANDARD => "standard"
  | .ENHANCED => "enhanced"

/-- Python `ExperimentConfig.EvaluationMode(s)`. -/
def EvalModeE.ofString (s : String) : Option EvalModeE :=
  if s = "standard" then some .STANDARD
  else if s = "enhanced" then some .ENHANCED
  else none

/-- `ExperimentConfig.TrackerType`. -/
inductive TrackerE where
  | NONE | MLFLOW | WANDB
deriving DecidableEq, Repr

/-- Enum member values of `ExperimentConfig.TrackerType`. -/
def TrackerE.val : TrackerE → String
  | .NONE => "none"
  | .MLFLOW => "mlflow"
  | .WANDB => "wandb"

/-- Python `ExperimentConfig.TrackerType(s)`. -/
def TrackerE.ofString (s : String) : Option TrackerE :=
  if s = "none" then some .NONE
  else if s = "mlflow" then some .MLFLOW
  else if s = "wandb" then some .WANDB
  else none

/-- The `model_architecture` attribute: a single enum member, or the list
kept verbatim for comparison experiments with multiple architectures. -/
inductive ArchField where
  | single : ArchE → ArchField
  | multi : List Value → ArchField

/-- In-memory `ExperimentConfig` object after `__init__` (fields in
assignment order; enum-valued fields already converted, `results_dir` held
as its string form, `config_history` a list of serialized history
entries). -/
structure ExperimentConfig where
  experiment_name : String
  experiment_id : String
  created_at : String
  dataset : DatasetE
  model_architecture : ArchField
  preprocessing_config : Option (List (String × Value))
  epochs : Int
  batch_size : Int
  learning_rate : ℚ
  cross_dataset_testing : Bool
  results_dir : String
  config_version : String
  config_history : List Value
  random_seed : Int
  use_early_stopping : Bool
  early_stopping_patience : Int
  early_stopping_min_delta : ℚ
  early_stopping_metric : String
  early_stopping_mode : String
  use_gradient_clipping : Bool
  gradient_clipping_max_norm : ℚ
  gradient_clipping_adaptive : Bool
  lr_scheduler_type : SchedE
  lr_scheduler_params : List (String × Value)
  save_best_checkpoint : Bool
  checkpoint_frequency : Int
  keep_last_n_checkpoints : Int
  keep_best_n_checkpoints : Int
  save_checkpoint_metadata : Bool
  resumable_training : Bool
  evaluation_mode : EvalModeE
  per_class_analysis : Bool
  calibration_analysis : Bool
  resource_monitoring : Bool
  calibration_n_bins : Int
  use_temperature_scaling : Bool
  confidence_threshold : ℚ
  save_raw_predictions : Bool
  max_misclassified_examples : Int
  model_complexity_analysis : Bool
  class_difficulty_metric : String
  tracker_type : TrackerE
  tracking_uri : Option String
  wandb_project : String
  wandb_entity : Option String
  track_metrics : Bool
  track_params : Bool
  track_artifacts : Bool
  track_models : Bool
  register_best_model : Bool
  tracking_tags : List (String × Value)

/-- Serialization of `model_architecture` in `to_dict`:
`self.model_architecture.value if not isinstance(..., list) else ...`. -/
def ArchField.toVal : ArchField → Value
  | .single a => .vStr a.val
  | .multi l => .vList l

/-- Serialization of an optional string attribute. -/
def optStrVal : Option String → Value
  | none => .vNull
  | some s => .vStr s

/-- `ExperimentConfig.to_dict`, keys in source order; the
`preprocessing_config` entry is appended only when the attribute is set. -/
def to_dict (c : ExperimentConfig) : List (String × Value) :=
  [("experiment_id", .vStr c.experiment_id),
   ("experiment_name", .vStr c.experiment_name),
   ("dataset", .vStr c.dataset.val),
   ("model_architecture", c.model_architecture.toVal),
   ("epochs", .vInt c.epochs),
   ("batch_size", .vInt c.batch_size),
   ("learning_rate", .vRat c.learning_rate),
   ("cross_dataset_testing", .vBool c.cross_dataset_testing),
   ("results_dir", .vStr c.results_dir),
   ("created_at", .vStr c.created_at),
   ("random_seed", .vInt c.random_seed),
   ("config_version", .vStr c.config_version),
   ("config_history", .vList c.config_history),
   ("use_early_stopping", .vBool c.use_early_stopping),
   ("early_stopping_patience", .vInt c.early_stopping_patience),
   ("early_stopping_min_delta", .vRat c.early_stopping_min_delta),
   ("early_stopping_metric", .vStr c.early_stopping_metric),
   ("early_stopping_mode", .vStr c.early_stopping_mode),
   ("use_gradient_clipping", .vBool c.use_gradient_clipping),
   ("gradient_clipping_max_norm", .vRat c.gradient_clipping_max_norm),
   ("gradient_clipping_adaptive", .vBool c.gradient_clipping_adaptive),
   ("lr_scheduler_type", .vStr c.lr_scheduler_type.val),
   ("lr_scheduler_params", .vDict c.lr_scheduler_params),
   ("save_best_checkpoint", .vBool c.save_best_checkpoint),
   ("checkpoint_frequency", .vInt c.checkpoint_frequency),
   ("keep_last_n_checkpoints", .vInt c.keep_last_n_checkpoints),
   ("keep_best_n_checkpoints", .vInt c.keep_best_n_checkpoints),
   ("save_checkpoint_metadata", .vBool c.save_checkpoint_metadata),
   ("resumable_training", .vBool c.resumable_training),
   ("evaluation_mode", .vStr c.evaluation_mode.val),
   ("per_class_analysis", .vBool c.per_class_analysis),
   ("calibration_analysis", .vBool c.calibration_analysis),
   ("resource_monitoring", .vBool c.resource_monitoring),
   ("calibration_n_bins", .vInt c.calibration_n_bins),
   ("use_temperature_scaling", .vBool c.use_temperature_scaling),
   ("confidence_threshold", .vRat c.confidence_threshold),
   ("save_raw_predictions", .vBool c.save_raw_predictions),
   ("max_misclassified_examples", .vInt c.max_misclassified_examples),
   ("model_complexity_analysis", .vBool c.model_complexity_analysis),
   ("class_difficulty_metric", .vStr c.class_difficulty_metric),
   ("tracker_type", .vStr c.tracker_type.val),
   ("tracking_uri", optStrVal c.tracking_uri),
   ("wandb_project", .vStr c.wandb_project),
   ("wandb_entity", optStrVal c.wandb_entity),
   ("track_metrics", .vBool c.track_metrics),
   ("track_params", .vBool c.track_params),
   ("track_artifacts", .vBool c.track_artifacts),
   ("track_models", .vBool c.track_models),
   ("register_best_model", .vBool c.register_best_model),
   ("tracking_tags", .vDict c.tracking_tags)]
  ++ (match c.preprocessing_config with
      | some pc => [("preprocessing_config", Value.vDict pc)]
      | none => [])

/-- Read a boolean-typed field. A serialized config produced by `to_dict`
always holds a boolean here; other values are outside the serialized-config
domain and are rejected. -/
def asBool : Value → Except String Bool
  | .vBool b => .ok b
  | _ => .error "expected a boolean"

/-- Read an integer-typed field. -/
def asInt : Value → Except String Int
  | .vInt n => .ok n
  | _ => .error "expected an integer"

/-- Read a float-typed field (a JSON integer is a valid Python number for
these fields and is read at its rational value). -/
def asRat : Value → Except String ℚ
  | .vRat q => .ok q
  | .vInt n => .ok (n : ℚ)
  | _ => .error "expected a number"

/-- Read a string-typed field. -/
def asStr : Value → Except String String
  | .vStr s => .ok s
  | _ => .error "expected a string"

/-- Read an optional string field (`None` maps to `none`). -/
def asOptStr : Value → Except String (Option String)
  | .vNull => .ok none
  | .vStr s => .ok (some s)
  | _ => .error "expected a string or null"

/-- Read a dictionary field guarded in `__init__` by `... or {}` (so `None`
reads as the empty dictionary). -/
def asDictD : Value → Except String (List (String × Value))
  | .vDict l => .ok l
  | .vNull => .ok []
  | _ => .error "expected a dict or null"

/-- Handling of the `dataset` argument in `ExperimentConfig.__init__`
(lines 202-208): an unknown value string raises `ValueError`. -/
def initDataset : Value → Except String DatasetE
  | .vStr s =>
    match DatasetE.ofString s with
    | some x => .ok x
    | none => .error ("Invalid dataset: " ++ s)
  | _ => .error "expected a string"

/-- Handling of `model_architecture` (lines 211-220): a list is kept
verbatim; an unknown string raises `ValueError`. -/
def initArch : Value → Except String ArchField
  | .vList l => .ok (.multi l)
  | .vStr s =>
    match ArchE.ofString s with
    | some a => .ok (.single a)
    | none => .error ("Invalid model architecture: " ++ s)
  | _ => .error "expected a string or list"

/-- Handling of `lr_scheduler_type` (lines 253-260): an unknown string logs
a warning and falls back to `NONE`. -/
def initSched : Value → Except String SchedE
  | .vStr s => .ok ((SchedE.ofString s).getD .NONE)
  | _ => .error "expected a string"

/-- Handling of `evaluation_mode` (lines 273-279): an unknown string raises
`ValueError`. -/
def initEval : Value → Except String EvalModeE
  | .vStr s =>
    match EvalModeE.ofString s with
    | some x => .ok x
    | none => .error ("Invalid evaluation mode: " ++ s)
  | _ => .error "expected a string"

/-- Handling of `tracker_type` (lines 293-300): an unknown string logs a
warning and falls back to `NONE`. -/
def initTracker : Value → Except String TrackerE
  | .vStr s => .ok ((TrackerE.ofString s).getD .NONE)
  | _ => .error "expected a string"

/-- `self.experiment_id = experiment_id or str(uuid.uuid4())[:8]`: a missing,
null or empty id is replaced by a fresh `uuid` (supplied as a parameter of
the embedding). -/
def initExperimentId (v : Option Value) (uuid : String) : Except String String :=
  match v with
  | some (.vStr s) => .ok (if s = "" then uuid else s)
  | some .vNull => .ok uuid
  | none => .ok uuid
  | some _ => .error "expected a string"

/-- `__init__` lines 230-235: a supplied `results_dir` is kept (`Path` round
trips its own string form); otherwise the directory name is auto-generated
from `OUT_DIR`, the experiment id and the current timestamp `now`. -/
def initResultsDir (v : Option Value) (eid now : String) : Except String String :=
  match v with
  | some (.vStr s) => .ok (if s = "" then "outputs/experiment_" ++ eid ++ "_" ++ now else s)
  | some .vNull => .ok ("outputs/experiment_" ++ eid ++ "_" ++ now)
  | none => .ok ("outputs/experiment_" ++ eid ++ "_" ++ now)
  | some _ => .error "expected a string"

/-- `ExperimentConfig.from_dict` composed with `__init__` (the only
constructor path): every field is read with `config_dict.get(key, default)`
and converted exactly as `__init__` converts it; `created_at` and
`config_history` are then restored verbatim when present. `uuid` and `now`
stand for the fresh uuid and the current timestamp. The nested
`preprocessing_config` is restored through `PreprocessingConfig.from_dict`
(`src/data_prep.py`, absent from the sources). Modelled from the spec: the
preprocessing sub-object round-trips through its dictionary form, so it is
represented by that dictionary. -/
def from_dict (d : List (String × Value)) (uuid now : String) :
    Except String ExperimentConfig := do
  let preprocessing_config ←
    match dictGet d "preprocessing_config" with
    | some (.vDict pc) => Except.ok (some pc)
    | none => Except.ok none
    | some _ => Except.error "invalid preprocessing_config"
  let experiment_id ← initExperimentId (dictGet d "experiment_id") uuid
  let experiment_name ← asStr (dictGetD d "experiment_name" (.vStr "Unnamed Experiment"))
  let dataset ← initDataset (dictGetD d "dataset" (.vStr "both"))
  let model_architecture ← initArch (dictGetD d "model_architecture" (.vStr "cnn"))
  let epochs ← asInt (dictGetD d "epochs" (.vInt 30))
  let batch_size ← asInt (dictGetD d "batch_size" (.vInt 32))
  let learning_rate ← asRat (dictGetD d "learning_rate" (.vRat (1/1000)))
  let cross_dataset_testing ← asBool (dictGetD d "cross_dataset_testing" (.vBool true))
  let results_dir ← initResultsDir (dictGet d "results_dir") experiment_id now
  let random_seed ← asInt (dictGetD d "random_seed" (.vInt 42))
  let config_version ← asStr (dictGetD d "config_version" (.vStr "1.0.0"))
  let use_early_stopping ← asBool (dictGetD d "use_early_stopping" (.vBool false))
  let early_stopping_patience ← asInt (dictGetD d "early_stopping_patience" (.vInt 10))
  let early_stopping_min_delta ← asRat (dictGetD d "early_stopping_min_delta" (.vRat 0))
  let early_stopping_metric ← asStr (dictGetD d "early_stopping_metric" (.vStr "loss"))
  let early_stopping_mode ← asStr (dictGetD d "early_stopping_mode" (.vStr "min"))
  let use_gradient_clipping ← asBool (dictGetD d "use_gradient_clipping" (.vBool false))
  let gradient_clipping_max_norm ← asRat (dictGetD d "gradient_clipping_max_norm" (.vRat 1))
  let gradient_clipping_adaptive ← asBool (dictGetD d "gradient_clipping_adaptive" (.vBool false))
  let lr_scheduler_type ← initSched (dictGetD d "lr_scheduler_type" (.vStr "none"))
  let lr_scheduler_params ← asDictD (dictGetD d "lr_scheduler_params" (.vDict []))
  let save_best_checkpoint ← asBool (dictGetD d "save_best_checkpoint" (.vBool true))
  let checkpoint_frequency ← asInt (dictGetD d "checkpoint_frequency" (.vInt 1))
  let keep_last_n_checkpoints ← asInt (dictGetD d "keep_last_n_checkpoints" (.vInt 5))
  let keep_best_n_checkpoints ← asInt (dictGetD d "keep_best_n_checkpoints" (.vInt 3))
  let save_checkpoint_metadata ← asBool (dictGetD d "save_checkpoint_metadata" (.vBool true))
  let resumable_training ← asBool (dictGetD d "resumable_training" (.vBool true))
  let evaluation_mode ← initEval (dictGetD d "evaluation_mode" (.vStr "standard"))
  let per_class_analysis ← asBool (dictGetD d "per_class_analysis" (.vBool true))
  let calibration_analysis ← asBool (dictGetD d "calibration_analysis" (.vBool true))
  let resource_monitoring ← asBool (dictGetD d "resource_monitoring" (.vBool true))
  let calibration_n_bins ← asInt (dictGetD d "calibration_n_bins" (.vInt 10))
  let use_temperature_scaling ← asBool (dictGetD d "use_temperature_scaling" (.vBool false))
  let confidence_threshold ← asRat (dictGetD d "confidence_threshold" (.vRat (1/2)))
  let save_raw_predictions ← asBool (dictGetD d "save_raw_predictions" (.vBool true))
  let max_misclassified_examples ← asInt (dictGetD d "max_misclassified_examples" (.vInt 10))
  let model_complexity_analysis ← asBool (dictGetD d "model_complexity_analysis" (.vBool true))
  let class_difficulty_metric ← asStr (dictGetD d "class_difficulty_metric" (.vStr "f1"))
  let tracker_type ← initTracker (dictGetD d "tracker_type" (.vStr "none"))
  let tracking_uri ← asOptStr (dictGetD d "tracking_uri" .vNull)
  let wandb_project ← asStr (dictGetD d "wandb_project" (.vStr "face-recognition"))
  let wandb_entity ← asOptStr (dictGetD d "wandb_entity" .vNull)
  let track_metrics ← asBool (dictGetD d "track_metrics" (.vBool true))
  let track_params ← asBool (dictGetD d "track_params" (.vBool true))
  let track_artifacts ← asBool (dictGetD d "track_artifacts" (.vBool true))
  let track_models ← asBool (dictGetD d "track_models" (.vBool true))
  let register_best_model ← asBool (dictGetD d "register_best_model" (.vBool false))
  let tracking_tags ← asDictD (dictGetD d "tracking_tags" (.vDict []))
  let created_at ←
    match dictGet d "created_at" with
    | some (.vStr s) => Except.ok s
    | none => Except.ok now
    | some _ => Except.error "invalid created_at"
  let config_history ←
    match dictGet d "config_history" with
    | some (.vList l) => Except.ok l
    | none => Except.ok ([] : List Value)
    | some _ => Except.error "invalid config_history"
  Except.ok
    { experiment_name := experiment_name
      experiment_id := experiment_id
      created_at := created_at
      dataset := dataset
      model_architecture := model_architecture
      preprocessing_config := preprocessing_config
      epochs := epochs
      batch_size := batch_size
      learning_rate := learning_rate
      cross_dataset_testing := cross_dataset_testing
      results_dir := results_dir
      config_version := config_version
      config_history := config_history
      random_seed := random_seed
      use_early_stopping := use_early_stopping
      early_stopping_patience := early_stopping_patience
      early_stopping_min_delta := early_stopping_min_delta
      early_stopping_metric := early_stopping_metric
      early_stopping_mode := early_stopping_mode
      use_gradient_clipping := use_gradient_clipping
      gradient_clipping_max_norm := gradient_clipping_max_norm
      gradient_clipping_adaptive := gradient_clipping_adaptive
      lr_scheduler_type := lr_scheduler_type
      lr_scheduler_params := lr_scheduler_params
      save_best_checkpoint := save_best_checkpoint
      checkpoint_frequency := checkpoint_frequency
      keep_last_n_checkpoints := keep_last_n_checkpoints
      keep_best_n_checkpoints := keep_best_n_checkpoints
      save_checkpoint_metadata := save_checkpoint_metadata
      resumable_training := resumable_training
      evaluation_mode := evaluation_mode
      per_class_analysis := per_class_analysis
      calibration_analysis := calibration_analysis
      resource_monitoring := resource_monitoring
      calibration_n_bins := calibration_n_bins
      use_temperature_scaling := use_temperature_scaling
      confidence_threshold := confidence_threshold
      save_raw_predictions := save_raw_predictions
      max_misclassified_examples := max_misclassified_examples
      model_complexity_analysis := model_complexity_analysis
      class_difficulty_metric := class_difficulty_metric
      tracker_type := tracker_type
      tracking_uri := tracking_uri
      wandb_project := wandb_project
      wandb_entity := wandb_entity
      track_metrics := track_metrics
      track_params := track_params
      track_artifacts := track_artifacts
      track_models := track_models
      register_best_model := register_best_model
      tracking_tags := tracking_tags }

/-- Content of the YAML document emitted by `yaml.dump`. Modelled from the
spec: the YAML serializer is the external PyYAML library (not part of this
repository); `yaml.safe_load` recovers exactly the JSON-able dictionary that
`yaml.dump` emitted, so the document is represented by its content. -/
structure YamlDoc where
  content : List (String × Value)

/-- `ExperimentConfig.to_yaml`: `yaml.dump(self.to_dict(), ...)`. -/
def to_yaml (c : ExperimentConfig) : YamlDoc := ⟨to_dict c⟩

/-- `ExperimentConfig.from_yaml`: `cls.from_dict(yaml.safe_load(yaml_str))`. -/
def from_yaml (y : YamlDoc) (uuid now : String) : Except String ExperimentConfig :=
  from_dict y.content uuid now

/-- `ExperimentConfig.add_to_history`: append to `config_history` a
timestamped snapshot of `to_dict()` with its own `config_history` key
popped. -/
def add_to_history (c : ExperimentConfig) (now : String) : ExperimentConfig :=
  { c with
      config_history := c.config_history ++
        [Value.vDict [("timestamp", .vStr now),
                      ("config", .vDict (eraseKey (to_dict c) "config_history"))]] }

/-- Python `str.split(sep)` for a one-character separator, at the character
level. -/
def pySplit (s : String) (sep : Char) : List String :=
  (s.data.splitOn sep).map (fun cs => String.mk cs)

/-- Decimal digits to a natural number (`none` on a non-digit or on the
empty string). -/
def digitsToNat (l : List Char) : Option ℕ :=
  match l with
  | [] => none
  | _ => l.foldl (fun acc c => acc.bind (fun n =>
      if c.isDigit then some (10 * n + (c.toNat - 48)) else none)) (some 0)

/-- Python `int(s)` on a decimal literal with an optional sign. -/
def pyInt (s : String) : Option Int :=
  match s.data with
  | '-' :: ds => (digitsToNat ds).map (fun n => -(n : Int))
  | '+' :: ds => (digitsToNat ds).map (fun n => (n : Int))
  | ds => (digitsToNat ds).map (fun n => (n : Int))

/-- Parse of `map(int, self.config_version.split('.'))` unpacked into three
components (raising `ValueError` when there are not exactly three dot-parts
or a part is not an integer literal). -/
def parseVersion (s : String) : Option (Int × Int × Int) :=
  match pySplit s '.' with
  | [a, b, c] =>
    match pyInt a, pyInt b, pyInt c with
    | some x, some y, some z => some (x, y, z)
    | _, _, _ => none
  | _ => none

/-- Format `f"{major}.{minor}.{patch}"`. -/
def fmtVersion (ma mi pa : Int) : String :=
  toString ma ++ "." ++ toString mi ++ "." ++ toString pa

/-- `ExperimentConfig.increment_version(level)`: first `add_to_history()`,
then parse the semantic version and bump the requested segment, resetting
the lower segments (any level other than major/minor bumps the patch, per
the `else` branch). A version that does not parse raises `ValueError` (the
error case; Python has then already appended the history snapshot, which
only the error case observes). -/
def increment_version (c : ExperimentConfig) (level : String) (now : String) :
    Except String ExperimentConfig :=
  let c1 := add_to_history c now
  match parseVersion c.config_version with
  | none => .error "ValueError: invalid version"
  | some (ma, mi, pa) =>
    .ok { c1 with
            config_version :=
              if level = "major" then fmtVersion (ma + 1) 0 0
              else if level = "minor" then fmtVersion ma (mi + 1) 0
              else fmtVersion ma mi (pa + 1) }

lemma eraseKey_not_mem (d : List (String × Value)) (k : String) (v : Value) :
    (k, v) ∉ eraseKey d k := by
  simp [eraseKey, List.mem_filter]

/-- C8: for every config whose `config_version` parses as
`major.minor.patch`, `increment_version` first appends the timestamped
current state minus its own history field as the newest (last) entry of
`config_history`, then bumps the requested segment and zeroes the lower
segments: major bumps to `(major+1).0.0`, minor to `major.(minor+1).0`,
patch to `major.minor.(patch+1)`; the snapshot records the pre-bump
`config_version` and carries no `config_history` key. -/
theorem bump_version_spec (c : ExperimentConfig) (now : String) (ma mi pa : Int)
    (h : parseVersion c.config_version = some (ma, mi, pa)) :
    increment_version c "major" now =
      .ok { add_to_history c now with config_version := fmtVersion (ma + 1) 0 0 }
    ∧ increment_version c "minor" now =
      .ok { add_to_history c now with config_version := fmtVersion ma (mi + 1) 0 }
    ∧ increment_version c "patch" now =
      .ok { add_to_history c now with config_version := fmtVersion ma mi (pa + 1) }
    ∧ (add_to_history c now).config_history =
        c.config_history ++
          [Value.vDict [("timestamp", .vStr now),
                        ("config", .vDict (eraseKey (to_dict c) "config_history"))]]
    ∧ ("config_version", Value.vStr c.config_version) ∈ eraseKey (to_dict c) "config_history"
    ∧ ∀ v, ("config_history", v) ∉ eraseKey (to_dict c) "config_history" := by
  refine ⟨?_, ?_, ?_, rfl, ?_, fun v => eraseKey_not_mem _ _ v⟩
  · simp [increment_version, h]
  · simp [increment_version, h]
  · simp [increment_version, h]
  · simp only [eraseKey, to_dict, List.filter_append, List.mem_append]
    refine Or.inl ?_
    simp

/-- A concrete in-memory configuration used to witness the config-store
theorems. -/
def sampleConfig : ExperimentConfig :=
  { experiment_name := "Sample Experiment"
    experiment_id := "abc12345"
    created_at := "2024-01-01T00:00:00"
    dataset := .DATASET1
    model_architecture := .single .CNN
    preprocessing_config := none
    epochs := 10
    batch_size := 32
    learning_rate := 1/1000
    cross_dataset_testing := false
    results_dir := "outputs/sample"
    config_version := "1.2.3"
    config_history := []
    random_seed := 42
    use_early_stopping := true
    early_stopping_patience := 10
    early_stopping_min_delta := 1/1000
    early_stopping_metric := "accuracy"
    early_stopping_mode := "max"
    use_gradient_clipping := true
    gradient_clipping_max_norm := 1
    gradient_clipping_adaptive := false
    lr_scheduler_type := .REDUCE_ON_PLATEAU
    lr_scheduler_params := []
    save_best_checkpoint := true
    checkpoint_frequency := 1
    keep_last_n_checkpoints := 5
    keep_best_n_checkpoints := 3
    save_checkpoint_metadata := true
    resumable_training := true
    evaluation_mode := .ENHANCED
    per_class_analysis := true
    calibration_analysis := true
    resource_monitoring := true
    calibration_n_bins := 10
    use_temperature_scaling := false
    confidence_threshold := 1/2
    save_raw_predictions := true
    max_misclassified_examples := 10
    model_complexity_analysis := true
    class_difficulty_metric := "f1"
    tracker_type := .MLFLOW
    tracking_uri := none
    wandb_project := "face-recognition"
    wandb_entity := none
    track_metrics := true
    track_params := true
    track_artifacts := true
    track_models := true
    register_best_model := false
    tracking_tags := [] }

/-- Witness for C8: bumping minor on version `1.2.3` gives `1.3.0`. -/
theorem bump_version_spec_witness :
    parseVersion sampleConfig.config_version = some (1, 2, 3)
    ∧ increment_version sampleConfig "minor" "2024-02-02T00:00:00" =
        .ok { add_to_history sampleConfig "2024-02-02T00:00:00" with
                config_version := fmtVersion 1 (2 + 1) 0 }
    ∧ fmtVersion 1 (2 + 1) 0 = "1.3.0" :=
  ⟨by decide,
    (bump_version_spec sampleConfig "2024-02-02T00:00:00" 1 2 3 (by decide)).2.1,
    by decide⟩

lemma initDataset_val (x : DatasetE) : initDataset (.vStr x.val) = .ok x := by
  cases x <;> rfl

lemma initArch_toVal (m : ArchField) : initArch m.toVal = .ok m := by
  cases m with
  | single a => cases a <;> rfl
  | multi l => rfl

lemma initSched_val (x : SchedE) : initSched (.vStr x.val) = .ok x := by
  cases x <;> rfl

lemma initEval_val (x : EvalModeE) : initEval (.vStr x.val) = .ok x := by
  cases x <;> rfl

lemma initTracker_val (x : TrackerE) : initTracker (.vStr x.val) = .ok x := by
  cases x <;> rfl

lemma asOptStr_optStrVal (o : Option String) : asOptStr (optStrVal o) = .ok o := by
  cases o <;> rfl

lemma bindOk {β γ : Type} (a : β) (f : β → Except String γ) :
    (do let x ← Except.ok a; f x : Except String γ) = f a := rfl

/-- C9: deserializing the serialization of a valid in-memory config (its id
and results directory are non-empty strings, as `__init__` guarantees)
yields a config equal to the original in every field, in both the JSON
(`to_dict`/`from_dict`) and the YAML (`to_yaml`/`from_yaml`) format;
`created_at` and `config_history` are restored verbatim here, which
satisfies the round-trip contract that lets them advance. -/
theorem config_roundtrip_spec (c : ExperimentConfig) (uuid now : String)
    (hid : c.experiment_id ≠ "") (hrd : c.results_dir ≠ "") :
    from_dict (to_dict c) uuid now = .ok c
    ∧ from_yaml (to_yaml c) uuid now = .ok c := by
  have h1 : from_dict (to_dict c) uuid now = .ok c := by
    cases hpc : c.preprocessing_config with
    | none =>
      simp only [to_dict, hpc]
      simp [from_dict, dictGetD, dictGet, bindOk, asBool, asInt, asRat, asStr,
        asOptStr_optStrVal, asDictD, initDataset_val, initArch_toVal, initSched_val,
        initEval_val, initTracker_val, initExperimentId, initResultsDir, hid, hrd]
      rw [← hpc]
    | some pc =>
      simp only [to_dict, hpc]
      simp [from_dict, dictGetD, dictGet, bindOk, asBool, asInt, asRat, asStr,
        asOptStr_optStrVal, asDictD, initDataset_val, initArch_toVal, initSched_val,
        initEval_val, initTracker_val, initExperimentId, initResultsDir, hid, hrd]
      rw [← hpc]
  exact ⟨h1, h1⟩

/-- Witness for C9 at the sample configuration. -/
theorem config_roundtrip_spec_witness :
    sampleConfig.experiment_id ≠ "" ∧ sampleConfig.results_dir ≠ ""
    ∧ from_dict (to_dict sampleConfig) "u0" "t0" = .ok sampleConfig :=
  ⟨by decide, by decide,
    (config_roundtrip_spec sampleConfig "u0" "t0" (by decide) (by decide)).1⟩

/-- The five enum-valued configuration fields named by the spec. -/
def enumFieldKeys : List String :=
  ["dataset", "model_architecture", "lr_scheduler_type", "evaluation_mode", "tracker_type"]

/-- C10 as claimed: a serialized configuration that is loadable apart from
one enum-valued field carrying an unknown string still loads (the field
falling back to a default) rather than failing the whole load. -/
def enumFallbackClaim : Prop :=
  ∀ (d : List (String × Value)) (uuid now k s : String),
    k ∈ enumFieldKeys →
    dictGet d k = some (Value.vStr s) →
    (∃ c₀, from_dict (eraseKey d k) uuid now = Except.ok c₀) →
    ∃ c, from_dict d uuid now = Except.ok c

/-- C10 counterexample: the dictionary whose only entry is the unknown
dataset value `"imagenet"` loads fine once that entry is removed, but
deserializing it as is raises `ValueError: Invalid dataset` and the whole
load fails. -/
theorem enum_fallback_counterexample : ¬ enumFallbackClaim := by
  intro h
  obtain ⟨c, hc⟩ := h [("dataset", Value.vStr "imagenet")] "u0" "t0" "dataset" "imagenet"
    (by simp [enumFieldKeys]) (by rfl) ⟨_, rfl⟩
  rw [show from_dict [("dataset", Value.vStr "imagenet")] "u0" "t0"
      = Except.error ("Invalid dataset: " ++ "imagenet") from rfl] at hc
  exact Except.noConfusion hc

/-- An otherwise-valid serialized configuration carrying the given strings
in its five enum-valued fields. -/
def mkEnumDict (ds ar sch ev tr : String) : List (String × Value) :=
  [("dataset", .vStr ds), ("model_architecture", .vStr ar),
   ("lr_scheduler_type", .vStr sch), ("evaluation_mode", .vStr ev),
   ("tracker_type", .vStr tr)]

lemma bindErr {β γ : Type} (e : String) (f : β → Except String γ) :
    (Except.error e : Except String β) >>= f = Except.error e := rfl

/-- C10 amended: only the LR-scheduler and tracker fields fall back to their
`NONE` default on an unknown value (with a logged warning); an unknown
dataset, model-architecture or evaluation-mode value raises `ValueError` and
fails the whole load. -/
theorem enum_handling_spec (uuid now s : String) :
    (SchedE.ofString s = none →
      Except.map (fun c => c.lr_scheduler_type)
        (from_dict (mkEnumDict "both" "cnn" s "standard" "none") uuid now)
        = Except.ok SchedE.NONE)
    ∧ (TrackerE.ofString s = none →
      Except.map (fun c => c.tracker_type)
        (from_dict (mkEnumDict "both" "cnn" "none" "standard" s) uuid now)
        = Except.ok TrackerE.NONE)
    ∧ (DatasetE.ofString s = none →
        from_dict (mkEnumDict s "cnn" "none" "standard" "none") uuid now =
          Except.error ("Invalid dataset: " ++ s))
    ∧ (ArchE.ofString s = none →
        from_dict (mkEnumDict "both" s "none" "standard" "none") uuid now =
          Except.error ("Invalid model architecture: " ++ s))
    ∧ (EvalModeE.ofString s = none →
        from_dict (mkEnumDict "both" "cnn" "none" s "none") uuid now =
          Except.error ("Invalid evaluation mode: " ++ s)) := by
  refine ⟨?_, ?_, ?_, ?_, ?_⟩ <;> intro hs
  · simp [from_dict, mkEnumDict, dictGetD, dictGet, bindOk, bindErr, asBool, asInt, asRat,
      asStr, asOptStr, asDictD, initDataset, initArch, initSched, initEval, initTracker,
      initExperimentId, initResultsDir, DatasetE.ofString, ArchE.ofString,
      EvalModeE.ofString, TrackerE.ofString, hs, Except.map]
  · simp [from_dict, mkEnumDict, dictGetD, dictGet, bindOk, bindErr, asBool, asInt, asRat,
      asStr, asOptStr, asDictD, initDataset, initArch, initSched, initEval, initTracker,
      initExperimentId, initResultsDir, DatasetE.ofString, ArchE.ofString,
      EvalModeE.ofString, SchedE.ofString, hs, Except.map]
  · simp [from_dict, mkEnumDict, dictGetD, dictGet, bindOk, bindErr, asBool, asInt, asRat,
      asStr, asOptStr, asDictD, initDataset, initArch, initSched, initEval, initTracker,
      initExperimentId, initResultsDir, ArchE.ofString, SchedE.ofString,
      EvalModeE.ofString, TrackerE.ofString, hs, Except.map]
  · simp [from_dict, mkEnumDict, dictGetD, dictGet, bindOk, bindErr, asBool, asInt, asRat,
      asStr, asOptStr, asDictD, initDataset, initArch, initSched, initEval, initTracker,
      initExperimentId, initResultsDir, DatasetE.ofString, SchedE.ofString,
      EvalModeE.ofString, TrackerE.ofString, hs, Except.map]
  · simp [from_dict, mkEnumDict, dictGetD, dictGet, bindOk, bindErr, asBool, asInt, asRat,
      asStr, asOptStr, asDictD, initDataset, initArch, initSched, initEval, initTracker,
      initExperimentId, initResultsDir, DatasetE.ofString, ArchE.ofString,
      SchedE.ofString, TrackerE.ofString, hs, Except.map]

/-- Witness for the amended C10 theorem: the unknown scheduler string
`"bogus"` falls back to `NONE`, while the unknown dataset string
`"marsface"` fails the load. -/
theorem enum_handling_spec_witness :
    SchedE.ofString "bogus" = none
    ∧ Except.map (fun c => c.lr_scheduler_type)
        (from_dict (mkEnumDict "both" "cnn" "bogus" "standard" "none") "u0" "t0")
        = Except.ok SchedE.NONE
    ∧ DatasetE.ofString "marsface" = none
    ∧ from_dict (mkEnumDict "marsface" "cnn" "none" "standard" "none") "u0" "t0" =
        Except.error ("Invalid dataset: " ++ "marsface") :=
  ⟨by decide, (enum_handling_spec "u0" "t0" "bogus").1 (by decide),
   by decide, (enum_handling_spec "u0" "t0" "marsface").2.2.1 (by decide)⟩

/-!
Hyperparameter search objective (`HyperparameterExperiment._objective`,
`src/experiment_manager.py` lines 2985-3025). The trial config is built
OUTSIDE the `try` block (so only the enum conversions of `__init__` could
raise there), then `run_experiment` and the score extraction run inside
`try`, every exception mapping to the score `0.0`. The outcome of the
external training run is an oracle parameter. -/

/-- The result dictionary returned by `run_experiment`, restricted to the
two keys the objective reads. -/
structure RunResult where
  best_validation_metrics : Option (List (String × ℚ))
  test_metrics : Option (List (List (String × ℚ)))
deriving DecidableEq

/-- Guard `"best_validation_metrics" in results and "accuracy" in ...`. -/
def hasBVAcc (r : RunResult) : Bool :=
  match r.best_validation_metrics with
  | some bvm => (metricGet bvm "accuracy").isSome
  | none => false

/-- Guard `"test_metrics" in results and results["test_metrics"] and
"accuracy" in results["test_metrics"][0]`. -/
def hasTestAcc (r : RunResult) : Bool :=
  match r.test_metrics with
  | some (d :: _) => (metricGet d "accuracy").isSome
  | _ => false

/-- The fallback of lines 3016-3021: the test accuracy when present,
otherwise `0.0`. -/
def testFallback (r : RunResult) : ℚ :=
  match r.test_metrics with
  | some (d :: _) => (metricGet d "accuracy").getD 0
  | _ => 0

/-- Score extraction of lines 3012-3021: prefer
`results["best_validation_metrics"]["accuracy"]`, fall back to
`results["test_metrics"][0]["accuracy"]`, else `0.0`. -/
def extractScore (r : RunResult) : ℚ :=
  match r.best_validation_metrics with
  | some bvm =>
    match metricGet bvm "accuracy" with
    | some a => a
    | none => testFallback r
  | none => testFallback r

/-- `HyperparameterExperiment._objective`: build the trial config from the
adapter's `dataset`/`model_architecture` strings (the conversions of
`__init__`, outside the `try` block), then run the training unit — an
oracle `runExp` standing for `self.experiment_manager.run_experiment` — and
extract the score, with the whole `try` body returning `0.0` on any
exception. -/
def objectiveFn (ds arch : String) (runExp : Except String RunResult) :
    Except String ℚ := do
  let _ ← initDataset (Value.vStr ds)
  let _ ← initArch (Value.vStr arch)
  match runExp with
  | .ok results => pure (extractScore results)
  | .error _ => pure 0

/-- C7: for an adapter configured with valid dataset and architecture names
(every call site passes members of the two enums), the objective never
propagates an exception: it returns the best validation accuracy when
present, otherwise the test accuracy when present, otherwise `0.0`, and it
returns `0.0` whenever running the training unit raises. -/
theorem hyperopt_objective_spec (ds arch : String) (dsv : DatasetE) (arv : ArchE)
    (hds : DatasetE.ofString ds = some dsv) (har : ArchE.ofString arch = some arv)
    (runExp : Except String RunResult) :
    (∃ q, objectiveFn ds arch runExp = Except.ok q)
    ∧ (∀ e, runExp = .error e → objectiveFn ds arch runExp = Except.ok 0)
    ∧ (∀ r bvm a, runExp = .ok r → r.best_validation_metrics = some bvm →
        metricGet bvm "accuracy" = some a → objectiveFn ds arch runExp = Except.ok a)
    ∧ (∀ r d rest a, runExp = .ok r → hasBVAcc r = false →
        r.test_metrics = some (d :: rest) → metricGet d "accuracy" = some a →
        objectiveFn ds arch runExp = Except.ok a)
    ∧ (∀ r, runExp = .ok r → hasBVAcc r = false → hasTestAcc r = false →
        objectiveFn ds arch runExp = Except.ok 0) := by
  have hobj : objectiveFn ds arch runExp =
      (match runExp with
        | .ok results => Except.ok (extractScore results)
        | .error _ => Except.ok 0) := by
    simp [objectiveFn, initDataset, initArch, hds, har, bindOk]
    cases runExp <;> rfl
  refine ⟨?_, ?_, ?_, ?_, ?_⟩
  · rw [hobj]
    cases runExp with
    | ok r => exact ⟨extractScore r, rfl⟩
    | error e => exact ⟨0, rfl⟩
  · intro e he
    subst he
    rw [hobj]
  · intro r bvm a hr hbvm ha
    subst hr
    rw [hobj]
    simp [extractScore, hbvm, ha]
  · intro r d rest a hr hbv htm ha
    subst hr
    have hnoneBV : ∀ bvm, r.best_validation_metrics = some bvm →
        metricGet bvm "accuracy" = none := by
      intro bvm h1
      cases hmg : metricGet bvm "accuracy" with
      | none => rfl
      | some x =>
        simp only [hasBVAcc, h1, hmg] at hbv
        simp at hbv
    have hext : extractScore r = a := by
      cases hb : r.best_validation_metrics with
      | none => simp [extractScore, hb, testFallback, htm, ha]
      | some bvm => simp [extractScore, hb, hnoneBV bvm hb, testFallback, htm, ha]
    rw [hobj]
    simp [hext]
  · intro r hr hbv hta
    subst hr
    have hnoneBV : ∀ bvm, r.best_validation_metrics = some bvm →
        metricGet bvm "accuracy" = none := by
      intro bvm h1
      cases hmg : metricGet bvm "accuracy" with
      | none => rfl
      | some x =>
        simp only [hasBVAcc, h1, hmg] at hbv
        simp at hbv
    have htf : testFallback r = 0 := by
      cases htm : r.test_metrics with
      | none => simp [testFallback, htm]
      | some l =>
        cases l with
        | nil => simp [testFallback, htm]
        | cons d rest =>
          have hmd : metricGet d "accuracy" = none := by
            cases hmg : metricGet d "accuracy" with
            | none => rfl
            | some x =>
              simp only [hasTestAcc, htm, hmg] at hta
              simp at hta
          simp [testFallback, htm, hmd]
    have hext : extractScore r = 0 := by
      cases hb : r.best_validation_metrics with
      | none => simp [extractScore, hb, htf]
      | some bvm => simp [extractScore, hb, hnoneBV bvm hb, htf]
    rw [hobj]
    simp [hext]

/-- Witness for C7: a valid adapter (`both`, `cnn`) whose trial reports a
best validation accuracy of 9/10. -/
theorem hyperopt_objective_spec_witness :
    DatasetE.ofString "both" = some DatasetE.BOTH
    ∧ ArchE.ofString "cnn" = some ArchE.CNN
    ∧ objectiveFn "both" "cnn"
        (Except.ok ⟨some [("accuracy", 9/10)], none⟩) = Except.ok (9/10) :=
  ⟨by decide, by decide,
    (hyperopt_objective_spec "both" "cnn" DatasetE.BOTH ArchE.CNN (by decide) (by decide)
        (Except.ok ⟨some [("accuracy", 9/10)], none⟩)).2.2.1
      ⟨some [("accuracy", 9/10)], none⟩ [("accuracy", 9/10)] (9/10) rfl rfl
      (by simp [metricGet])⟩

/-!
Sweep orchestrator
(`run_comprehensive_face_recognition_experiment` in
`src/run_comprehensive_experiment.py`), restricted to its architecture
comparison phases. The control skeleton is: an initial
`check_disk_space(min_gb=5)` whose failure returns an error result (line
127); the enhanced-preprocessing double loop over datasets and
architectures with a per-unit `check_disk_space(min_gb=2)` that skips and
records the unit (lines 246-252) and a catch-all that records a raising
unit and continues (lines 449-464); a phase-level `check_disk_space(min_gb=2)`
before the minimal-preprocessing phase whose failure skips that whole phase
(lines 466-469); and the minimal double loop with a per-unit
`check_disk_space(min_gb=1)` (lines 485-491) and the same catch-all. Free
disk space varies over time: the `i`-th `check_disk_space` call of the run
reads `disk i`; the body of a unit (config building, training through
`handle_special_architecture` or `_run_single_model_experiment`,
visualization, checkpoint cleanup) is abstracted to the oracle `trainOk`
telling whether it completes or raises.
-/

/-- The two preprocessing configurations of the sweep. -/
inductive Prep where
  | enhanced | minimal
deriving DecidableEq, Repr

/-- One sweep unit: preprocessing x dataset x architecture. -/
structure SweepUnit where
  prep : Prep
  dataset : String
  arch : String
deriving DecidableEq, Repr

/-- The identity recorded in `failed_architectures`
(`f"enhanced_{dataset_name}_{arch}"` / `f"minimal_{dataset_name}_{arch}"`). -/
def unitId (u : SweepUnit) : String :=
  (match u.prep with
    | .enhanced => "enhanced_"
    | .minimal => "minimal_") ++ u.dataset ++ "_" ++ u.arch

/-- Orchestrator state: the number of `check_disk_space` calls made so far,
the units whose training body was entered, and `failed_architectures`. -/
structure SweepState where
  tick : ℕ
  invoked : List SweepUnit
  failed : List String
deriving DecidableEq, Repr

/-- The body of one iteration of the inner architecture loop: check disk
against the phase threshold; on failure skip the unit and record it; else
run the unit, recording it on an exception, and continue either way. -/
def processUnit (disk : ℕ → ℚ) (trainOk : SweepUnit → Bool) (thr : ℚ)
    (st : SweepState) (u : SweepUnit) : SweepState :=
  if disk st.tick < thr then
    { tick := st.tick + 1, invoked := st.invoked, failed := st.failed ++ [unitId u] }
  else if trainOk u then
    { tick := st.tick + 1, invoked := st.invoked ++ [u], failed := st.failed }
  else
    { tick := st.tick + 1, invoked := st.invoked ++ [u], failed := st.failed ++ [unitId u] }

/-- The units of one preprocessing phase, in loop order (datasets outer,
architectures inner). -/
def phaseUnits (p : Prep) (datasets archs : List String) : List SweepUnit :=
  datasets.flatMap (fun ds => archs.map (fun a => ⟨p, ds, a⟩))

/-- One phase's double loop. -/
def runPhase (disk : ℕ → ℚ) (trainOk : SweepUnit → Bool) (thr : ℚ)
    (units : List SweepUnit) (st : SweepState) : SweepState :=
  units.foldl (processUnit disk trainOk thr) st

/-- The architecture-comparison sweep: initial 5GB gate (failure returns the
error result, modelled as `none`), enhanced phase at 2GB per unit, 2GB phase
gate before the minimal phase (failure skips the whole phase), minimal phase
at 1GB per unit. -/
def runSweep (disk : ℕ → ℚ) (trainOk : SweepUnit → Bool)
    (datasets archs : List String) : Option SweepState :=
  if disk 0 < 5 then none
  else
    let st1 := runPhase disk trainOk 2 (phaseUnits .enhanced datasets archs)
      { tick := 1, invoked := [], failed := [] }
    if disk st1.tick < 2 then some { st1 with tick := st1.tick + 1 }
    else some (runPhase disk trainOk 1 (phaseUnits .minimal datasets archs)
      { st1 with tick := st1.tick + 1 })

/-- The threshold the per-unit check compares against in each phase. -/
def unitThreshold : Prep → ℚ
  | .enhanced => 2
  | .minimal => 1

/-- Index of the `check_disk_space` call that guards a given unit:
call 0 is the initial gate, calls `1..E` guard the enhanced units, call
`1+E` is the phase gate, and calls `2+E..` guard the minimal units. -/
def unitSite (datasets archs : List String) (u : SweepUnit) : ℕ :=
  match u.prep with
  | .enhanced => 1 + (phaseUnits .enhanced datasets archs).indexOf u
  | .minimal => 2 + (phaseUnits .enhanced datasets archs).length
      + (phaseUnits .minimal datasets archs).indexOf u

/-- C1 as claimed: every sweep unit is guarded by its own disk check; when
that check reads below the unit's threshold the unit is skipped, its
identity is recorded in the failure list and training is not invoked,
otherwise training is invoked, and the sweep always completes. -/
def sweepGateClaim : Prop :=
  ∀ (disk : ℕ → ℚ) (trainOk : SweepUnit → Bool) (datasets archs : List String)
    (u : SweepUnit),
    u ∈ phaseUnits Prep.enhanced datasets archs ++ phaseUnits Prep.minimal datasets archs →
    ∃ st, runSweep disk trainOk datasets archs = some st
      ∧ (disk (unitSite datasets archs u) < unitThreshold u.prep →
          u ∉ st.invoked ∧ unitId u ∈ st.failed)
      ∧ (¬ disk (unitSite datasets archs u) < unitThreshold u.prep → u ∈ st.invoked)

/-- C1 counterexample: with one dataset and one architecture, ample disk
everywhere except at the phase gate before the minimal phase (call index 2),
the minimal unit's own would-be check would read 100GB, yet the whole
minimal phase is skipped: the unit is neither trained nor recorded in the
failure list, refuting the claim. -/
theorem sweep_gate_counterexample : ¬ sweepGateClaim := by
  intro h
  obtain ⟨st, hrun, _, hsuff⟩ :=
    h (fun i => if i = 2 then 0 else 100) (fun _ => true) ["d1"] ["a1"]
      ⟨Prep.minimal, "d1", "a1"⟩ (by decide)
  have hst : st = { tick := 3, invoked := [⟨Prep.enhanced, "d1", "a1"⟩], failed := [] } := by
    have hv : runSweep (fun i => if i = 2 then 0 else 100) (fun _ => true) ["d1"] ["a1"]
        = some { tick := 3, invoked := [⟨Prep.enhanced, "d1", "a1"⟩], failed := [] } := by
      decide
    rw [hv] at hrun
    exact (Option.some.injEq _ _).mp hrun.symm
  have hmem := hsuff (by decide)
  rw [hst] at hmem
  exact absurd hmem (by decide)

lemma processUnit_of_low {disk : ℕ → ℚ} {trainOk : SweepUnit → Bool} {thr : ℚ}
    {st : SweepState} {u : SweepUnit} (h : disk st.tick < thr) :
    processUnit disk trainOk thr st u =
      { tick := st.tick + 1, invoked := st.invoked, failed := st.failed ++ [unitId u] } := by
  simp [processUnit, h]

lemma processUnit_of_ok {disk : ℕ → ℚ} {trainOk : SweepUnit → Bool} {thr : ℚ}
    {st : SweepState} {u : SweepUnit} (h : ¬ disk st.tick < thr) (h2 : trainOk u = true) :
    processUnit disk trainOk thr st u =
      { tick := st.tick + 1, invoked := st.invoked ++ [u], failed := st.failed } := by
  simp [processUnit, h, h2]

lemma processUnit_of_raise {disk : ℕ → ℚ} {trainOk : SweepUnit → Bool} {thr : ℚ}
    {st : SweepState} {u : SweepUnit} (h : ¬ disk st.tick < thr) (h2 : trainOk u = false) :
    processUnit disk trainOk thr st u =
      { tick := st.tick + 1, invoked := st.invoked ++ [u],
        failed := st.failed ++ [unitId u] } := by
  simp [processUnit, h, h2]

lemma processUnit_tick (disk : ℕ → ℚ) (trainOk : SweepUnit → Bool) (thr : ℚ)
    (st : SweepState) (u : SweepUnit) :
    (processUnit disk trainOk thr st u).tick = st.tick + 1 := by
  by_cases h1 : disk st.tick < thr
  · rw [processUnit_of_low h1]
  · cases h2 : trainOk u
    · rw [processUnit_of_raise h1 h2]
    · rw [processUnit_of_ok h1 h2]

lemma processUnit_invoked_mono {disk : ℕ → ℚ} {trainOk : SweepUnit → Bool} {thr : ℚ}
    {st : SweepState} {u v : SweepUnit} (h : u ∈ st.invoked) :
    u ∈ (processUnit disk trainOk thr st v).invoked := by
  by_cases h1 : disk st.tick < thr
  · rw [processUnit_of_low h1]; exact h
  · cases h2 : trainOk v
    · rw [processUnit_of_raise h1 h2]; exact List.mem_append_left _ h
    · rw [processUnit_of_ok h1 h2]; exact List.mem_append_left _ h

lemma processUnit_failed_mono {disk : ℕ → ℚ} {trainOk : SweepUnit → Bool} {thr : ℚ}
    {st : SweepState} {v : SweepUnit} {s : String} (h : s ∈ st.failed) :
    s ∈ (processUnit disk trainOk thr st v).failed := by
  by_cases h1 : disk st.tick < thr
  · rw [processUnit_of_low h1]; exact List.mem_append_left _ h
  · cases h2 : trainOk v
    · rw [processUnit_of_raise h1 h2]; exact List.mem_append_left _ h
    · rw [processUnit_of_ok h1 h2]; exact h

lemma processUnit_invoked_sub {disk : ℕ → ℚ} {trainOk : SweepUnit → Bool} {thr : ℚ}
    {st : SweepState} {u v : SweepUnit}
    (h : u ∈ (processUnit disk trainOk thr st v).invoked) :
    u ∈ st.invoked ∨ u = v := by
  by_cases h1 : disk st.tick < thr
  · rw [processUnit_of_low h1] at h; exact Or.inl h
  · cases h2 : trainOk v
    · rw [processUnit_of_raise h1 h2] at h
      rcases List.mem_append.mp h with h3 | h3
      · exact Or.inl h3
      · exact Or.inr (List.mem_singleton.mp h3)
    · rw [processUnit_of_ok h1 h2] at h
      rcases List.mem_append.mp h with h3 | h3
      · exact Or.inl h3
      · exact Or.inr (List.mem_singleton.mp h3)

lemma processUnit_failed_sub {disk : ℕ → ℚ} {trainOk : SweepUnit → Bool} {thr : ℚ}
    {st : SweepState} {v : SweepUnit} {s : String}
    (h : s ∈ (processUnit disk trainOk thr st v).failed) :
    s ∈ st.failed ∨ s = unitId v := by
  by_cases h1 : disk st.tick < thr
  · rw [processUnit_of_low h1] at h
    rcases List.mem_append.mp h with h3 | h3
    · exact Or.inl h3
    · exact Or.inr (List.mem_singleton.mp h3)
  · cases h2 : trainOk v
    · rw [processUnit_of_raise h1 h2] at h
      rcases List.mem_append.mp h with h3 | h3
      · exact Or.inl h3
      · exact Or.inr (List.mem_singleton.mp h3)
    · rw [processUnit_of_ok h1 h2] at h
      exact Or.inl h

lemma runPhase_tick (disk : ℕ → ℚ) (trainOk : SweepUnit → Bool) (thr : ℚ)
    (units : List SweepUnit) : ∀ st : SweepState,
    (runPhase disk trainOk thr units st).tick = st.tick + units.length := by
  induction units with
  | nil => intro st; simp [runPhase]
  | cons v rest ih =>
    intro st
    simp only [runPhase, List.foldl_cons] at ih ⊢
    rw [ih, processUnit_tick]
    simp
    omega

lemma runPhase_invoked_mono {disk : ℕ → ℚ} {trainOk : SweepUnit → Bool} {thr : ℚ}
    {units : List SweepUnit} : ∀ {st : SweepState} {u : SweepUnit}, u ∈ st.invoked →
    u ∈ (runPhase disk trainOk thr units st).invoked := by
  induction units with
  | nil => intro st u h; exact h
  | cons v rest ih =>
    intro st u h
    simp only [runPhase, List.foldl_cons] at ih ⊢
    exact ih (processUnit_invoked_mono h)

lemma runPhase_failed_mono {disk : ℕ → ℚ} {trainOk : SweepUnit → Bool} {thr : ℚ}
    {units : List SweepUnit} : ∀ {st : SweepState} {s : String}, s ∈ st.failed →
    s ∈ (runPhase disk trainOk thr units st).failed := by
  induction units with
  | nil => intro st s h; exact h
  | cons v rest ih =>
    intro st s h
    simp only [runPhase, List.foldl_cons] at ih ⊢
    exact ih (processUnit_failed_mono h)

lemma runPhase_invoked_sub {disk : ℕ → ℚ} {trainOk : SweepUnit → Bool} {thr : ℚ}
    {units : List SweepUnit} : ∀ {st : SweepState} {u : SweepUnit},
    u ∈ (runPhase disk trainOk thr units st).invoked →
    u ∈ st.invoked ∨ u ∈ units := by
  induction units with
  | nil => intro st u h; exact Or.inl h
  | cons v rest ih =>
    intro st u h
    simp only [runPhase, List.foldl_cons] at ih h
    rcases ih h with h3 | h3
    · rcases processUnit_invoked_sub h3 with h4 | h4
      · exact Or.inl h4
      · exact Or.inr (by simp [h4])
    · exact Or.inr (List.mem_cons_of_mem _ h3)

lemma runPhase_failed_sub {disk : ℕ → ℚ} {trainOk : SweepUnit → Bool} {thr : ℚ}
    {units : List SweepUnit} : ∀ {st : SweepState} {s : String},
    s ∈ (runPhase disk trainOk thr units st).failed →
    s ∈ st.failed ∨ ∃ u, u ∈ units ∧ s = unitId u := by
  induction units with
  | nil => intro st s h; exact Or.inl h
  | cons v rest ih =>
    intro st s h
    simp only [runPhase, List.foldl_cons] at ih h
    rcases ih h with h3 | ⟨u, hu, hs⟩
    · rcases processUnit_failed_sub h3 with h4 | h4
      · exact Or.inl h4
      · exact Or.inr ⟨v, by simp, h4⟩
    · exact Or.inr ⟨u, List.mem_cons_of_mem _ hu, hs⟩

/-- The per-unit guarantee of one phase loop: each unit of the loop is
guarded by the disk reading at its own position; a low reading skips it and
records its identity, an adequate reading invokes it, and an invoked unit
that raises is also recorded. -/
lemma runPhase_unit (disk : ℕ → ℚ) (trainOk : SweepUnit → Bool) (thr : ℚ) :
    ∀ (units : List SweepUnit) (st : SweepState) (u : SweepUnit),
      u ∈ units → units.Nodup → u ∉ st.invoked →
      ((disk (st.tick + units.indexOf u) < thr →
          u ∉ (runPhase disk trainOk thr units st).invoked
          ∧ unitId u ∈ (runPhase disk trainOk thr units st).failed)
        ∧ (¬ disk (st.tick + units.indexOf u) < thr →
          u ∈ (runPhase disk trainOk thr units st).invoked
          ∧ (trainOk u = false →
              unitId u ∈ (runPhase disk trainOk thr units st).failed))) := by
  intro units
  induction units with
  | nil => intro st u h; exact absurd h (List.not_mem_nil u)
  | cons v rest ih =>
    intro st u hmem hnd hninv
    rcases List.mem_cons.mp hmem with rfl | hmem2
    · -- u is the head of the loop: its check is the very next reading
      rw [List.indexOf_cons_self]
      simp only [Nat.add_zero]
      have hunotin : u ∉ rest := (List.nodup_cons.mp hnd).1
      constructor
      · intro hlow
        have hstep := @processUnit_of_low disk trainOk thr st u hlow
        simp only [runPhase, List.foldl_cons, hstep]
        constructor
        · intro hbad
          rcases runPhase_invoked_sub hbad with h4 | h4
          · exact hninv h4
          · exact hunotin h4
        · exact runPhase_failed_mono (by simp)
      · intro hok
        cases h2 : trainOk u
        · have hstep := @processUnit_of_raise disk trainOk thr st u hok h2
          simp only [runPhase, List.foldl_cons, hstep]
          refine ⟨runPhase_invoked_mono (by simp), fun _ => runPhase_failed_mono (by simp)⟩
        · have hstep := @processUnit_of_ok disk trainOk thr st u hok h2
          simp only [runPhase, List.foldl_cons, hstep]
          refine ⟨runPhase_invoked_mono (by simp), fun hc => by simp [h2] at hc⟩
    · -- u comes later: one reading is consumed by the head first
      have hne : u ≠ v := by
        rintro rfl
        exact (List.nodup_cons.mp hnd).1 hmem2
      rw [List.indexOf_cons_ne _ (Ne.symm hne)]
      have htick : (processUnit disk trainOk thr st v).tick = st.tick + 1 :=
        processUnit_tick disk trainOk thr st v
      have hninv2 : u ∉ (processUnit disk trainOk thr st v).invoked := by
        intro hbad
        rcases processUnit_invoked_sub hbad with h4 | h4
        · exact hninv h4
        · exact hne h4
      have := ih (processUnit disk trainOk thr st v) u hmem2 (List.nodup_cons.mp hnd).2 hninv2
      rw [htick] at this
      simp only [runPhase, List.foldl_cons]
      have harith : st.tick + 1 + List.indexOf u rest = st.tick + (List.indexOf u rest + 1) := by
        omega
      rw [← harith]
      exact this

lemma mem_phaseUnits_prep {u : SweepUnit} {p : Prep} {datasets archs : List String}
    (h : u ∈ phaseUnits p datasets archs) : u.prep = p := by
  simp only [phaseUnits, List.mem_flatMap, List.mem_map] at h
  obtain ⟨ds, _, a, _, rfl⟩ := h
  rfl

lemma unitId_minimal_ne_enhanced {u v : SweepUnit} (hu : u.prep = Prep.minimal)
    (hv : v.prep = Prep.enhanced) : unitId u ≠ unitId v := by
  intro h
  have hd := congrArg String.data h
  simp only [unitId, hu, hv, String.data_append] at hd
  simp at hd

/-- C1 amended: when the initial 5GB gate passes, the sweep always completes
and, within each preprocessing phase, every unit is guarded by the disk
reading at its own check: a reading below the phase threshold (2GB enhanced,
1GB minimal) skips exactly that unit, appends its identity to
`failed_architectures` and never invokes its training body, an adequate
reading invokes the unit, and a unit that raises is also recorded while the
sweep continues. However the minimal phase as a whole sits behind an
additional 2GB gate: when that phase gate reads low, every minimal unit is
skipped without any per-unit check and without being recorded as failed. -/
theorem sweep_resource_gate_spec (disk : ℕ → ℚ) (trainOk : SweepUnit → Bool)
    (datasets archs : List String)
    (hne : (phaseUnits Prep.enhanced datasets archs).Nodup)
    (hnm : (phaseUnits Prep.minimal datasets archs).Nodup)
    (h5 : ¬ disk 0 < 5) :
    ∃ st, runSweep disk trainOk datasets archs = some st
      ∧ (∀ u ∈ phaseUnits Prep.enhanced datasets archs,
          (disk (unitSite datasets archs u) < 2 →
            u ∉ st.invoked ∧ unitId u ∈ st.failed)
          ∧ (¬ disk (unitSite datasets archs u) < 2 →
            u ∈ st.invoked ∧ (trainOk u = false → unitId u ∈ st.failed)))
      ∧ (disk (1 + (phaseUnits Prep.enhanced datasets archs).length) < 2 →
          ∀ u ∈ phaseUnits Prep.minimal datasets archs,
            u ∉ st.invoked ∧ unitId u ∉ st.failed)
      ∧ (¬ disk (1 + (phaseUnits Prep.enhanced datasets archs).length) < 2 →
          ∀ u ∈ phaseUnits Prep.minimal datasets archs,
            (disk (unitSite datasets archs u) < 1 →
              u ∉ st.invoked ∧ unitId u ∈ st.failed)
            ∧ (¬ disk (unitSite datasets archs u) < 1 → u ∈ st.invoked)) := by
  have htick1 : (runPhase disk trainOk 2 (phaseUnits Prep.enhanced datasets archs)
      { tick := 1, invoked := [], failed := [] }).tick
      = 1 + (phaseUnits Prep.enhanced datasets archs).length := by
    rw [runPhase_tick]
  set st1 := runPhase disk trainOk 2 (phaseUnits Prep.enhanced datasets archs)
    { tick := 1, invoked := [], failed := [] } with hst1
  have hinv1 : ∀ u : SweepUnit, u.prep = Prep.minimal → u ∉ st1.invoked := by
    intro u hu hbad
    rcases runPhase_invoked_sub hbad with h4 | h4
    · simp at h4
    · rw [mem_phaseUnits_prep h4] at hu
      cases hu
  have hfail1 : ∀ u : SweepUnit, u.prep = Prep.minimal → unitId u ∉ st1.failed := by
    intro u hu hbad
    rcases runPhase_failed_sub hbad with h4 | ⟨v, hv, hs⟩
    · simp at h4
    · exact unitId_minimal_ne_enhanced hu (mem_phaseUnits_prep hv) hs
  have henh : ∀ u ∈ phaseUnits Prep.enhanced datasets archs,
      (disk (unitSite datasets archs u) < 2 →
        u ∉ st1.invoked ∧ unitId u ∈ st1.failed)
      ∧ (¬ disk (unitSite datasets archs u) < 2 →
        u ∈ st1.invoked ∧ (trainOk u = false → unitId u ∈ st1.failed)) := by
    intro u hu
    have hsite : unitSite datasets archs u
        = 1 + (phaseUnits Prep.enhanced datasets archs).indexOf u := by
      simp [unitSite, mem_phaseUnits_prep hu]
    have := runPhase_unit disk trainOk 2 (phaseUnits Prep.enhanced datasets archs)
      { tick := 1, invoked := [], failed := [] } u hu hne (by simp)
    rw [hsite]
    simpa using this
  by_cases hgate : disk st1.tick < 2
  · refine ⟨{ st1 with tick := st1.tick + 1 }, ?_, ?_, ?_, ?_⟩
    · simp only [runSweep, if_neg h5, ← hst1, if_pos hgate]
    · intro u hu
      exact henh u hu
    · intro _ u hu
      exact ⟨hinv1 u (mem_phaseUnits_prep hu), hfail1 u (mem_phaseUnits_prep hu)⟩
    · intro hg2
      rw [htick1] at hgate
      exact absurd hgate hg2
  · set st2 : SweepState := { st1 with tick := st1.tick + 1 } with hst2
    refine ⟨runPhase disk trainOk 1 (phaseUnits Prep.minimal datasets archs) st2, ?_, ?_, ?_, ?_⟩
    · simp only [runSweep, if_neg h5, ← hst1, if_neg hgate, ← hst2]
    · intro u hu
      have hfacts := henh u hu
      have hprep := mem_phaseUnits_prep hu
      constructor
      · intro hlow
        obtain ⟨hn1, hf1⟩ := hfacts.1 hlow
        constructor
        · intro hbad
          rcases runPhase_invoked_sub hbad with h4 | h4
          · exact hn1 h4
          · rw [mem_phaseUnits_prep h4] at hprep
            cases hprep
        · exact runPhase_failed_mono hf1
      · intro hok
        obtain ⟨hi1, hf1⟩ := hfacts.2 hok
        exact ⟨runPhase_invoked_mono hi1, fun hc => runPhase_failed_mono (hf1 hc)⟩
    · intro hg2
      rw [htick1] at hgate
      exact absurd hg2 hgate
    · intro _ u hu
      have hprep := mem_phaseUnits_prep hu
      have hsite : unitSite datasets archs u
          = st2.tick + (phaseUnits Prep.minimal datasets archs).indexOf u := by
        simp only [hst2, unitSite, hprep, htick1]
        omega
      have hninv2 : u ∉ st2.invoked := hinv1 u hprep
      have := runPhase_unit disk trainOk 1 (phaseUnits Prep.minimal datasets archs)
        st2 u hu hnm hninv2
      rw [hsite]
      exact ⟨fun hlow => (this.1 hlow), fun hok => (this.2 hok).1⟩

/-- Witness for the amended C1 theorem: one dataset, two architectures,
ample disk except at the check guarding the second enhanced unit, which is
therefore skipped and recorded. -/
theorem sweep_resource_gate_spec_witness :
    ∃ st, runSweep (fun i => if i = 2 then (0 : ℚ) else 100) (fun _ => true)
        ["d1"] ["a1", "a2"] = some st
      ∧ (⟨Prep.enhanced, "d1", "a2"⟩ : SweepUnit) ∉ st.invoked
      ∧ unitId ⟨Prep.enhanced, "d1", "a2"⟩ ∈ st.failed := by
  obtain ⟨st, hrun, henh, _, _⟩ :=
    sweep_resource_gate_spec (fun i => if i = 2 then (0 : ℚ) else 100) (fun _ => true)
      ["d1"] ["a1", "a2"] (by decide) (by decide) (by decide)
  have h2 := henh ⟨Prep.enhanced, "d1", "a2"⟩ (by decide)
  have h3 := h2.1 (by decide)
  exact ⟨st, hrun, h3.1, h3.2⟩

/-!
Rerun planner (`main` in `rerun_experiment.py`, lines 107-186). Paths are
segment lists relative to the experiment directory; each tree entry is a
path plus whether it is a directory (`Path.is_dir()`). The planner appends
`(path, kind)` selections to `to_remove`:

* per requested model, the directory glob
  `glob(f"{experiment_dir}/**/*/siamese", recursive=True)` (the pattern is
  hard-coded to `siamese`; the loop variable `model` is unused there), with
  no containment check, then the result files
  `glob(f"{experiment_dir}/**/*{model}*.json")`, each skipped when its
  string form starts with the string form of an already selected directory;
* when rerunning cross-validation, per-model `{cv_dir}/**/{model}` and
  `{cv_dir}/**/*{model}*.json` globs (each entry skipped when covered by an
  already selected directory), or the whole `cross_validation` directory
  when no models were named, plus the top-level report file;
* when rerunning hyperparameter optimization, per-model
  `{hyperopt_dir}/**/*{model}*` globs with the same check, or the whole
  directory.
-/

/-- Whether a tree entry is a directory or a plain file. -/
inductive FKind where
  | dir | file
deriving DecidableEq, Repr

/-- One entry of the prior sweep's output tree. -/
structure FSEntry where
  path : List String
  kind : FKind
deriving DecidableEq, Repr

/-- Python `str(path)` relative to the experiment directory. -/
def pathStr (p : List String) : String := String.intercalate "/" p

/-- Python `str(s).startswith(str(pre))`. -/
def strStartsWith (s pre : String) : Bool := pre.data.isPrefixOf s.data

/-- Whether segment `seg` matches the glob `*{model}*`. -/
def starMatch (model seg : String) : Bool := decide (model.data <:+: seg.data)

/-- Whether segment `seg` matches the glob `*{model}*.json`
(equivalently: `seg` ends in `.json` and `model` occurs in `seg` minus that
suffix). -/
def jsonStarMatch (model seg : String) : Bool :=
  decide (".json".data <:+ seg.data)
    && starMatch model (String.mk (seg.data.take (seg.data.length - 5)))

/-- Matches of `glob(f"{experiment_dir}/**/*/siamese", recursive=True)`:
paths of at least two segments whose final segment is the literal
`siamese` (the loop variable is not interpolated in the source). -/
def dirGlobPred (e : FSEntry) : Bool :=
  decide (2 ≤ e.path.length) && decide (e.path.getLast? = some "siamese")

/-- Matches of `glob(f"{experiment_dir}/**/*{model}*.json", recursive=True)`. -/
def jsonGlobPred (model : String) (e : FSEntry) : Bool :=
  decide (1 ≤ e.path.length) &&
    (match e.path.getLast? with
      | some seg => jsonStarMatch model seg
      | none => false)

/-- Matches of `glob(f"{cv_dir}/**/{model}", recursive=True)`. -/
def cvDirPred (model : String) (e : FSEntry) : Bool :=
  decide (e.path.head? = some "cross_validation") && decide (2 ≤ e.path.length) &&
    decide (e.path.getLast? = some model)

/-- Matches of `glob(f"{cv_dir}/**/*{model}*.json", recursive=True)`. -/
def cvJsonPred (model : String) (e : FSEntry) : Bool :=
  decide (e.path.head? = some "cross_validation") && decide (2 ≤ e.path.length) &&
    (match e.path.getLast? with
      | some seg => jsonStarMatch model seg
      | none => false)

/-- Matches of `glob(f"{hyperopt_dir}/**/*{model}*", recursive=True)`. -/
def hyperPred (model : String) (e : FSEntry) : Bool :=
  decide (e.path.head? = some "hyperparameter_optimization") && decide (2 ≤ e.path.length) &&
    (match e.path.getLast? with
      | some seg => starMatch model seg
      | none => false)

/-- The containment check
`any(str(p).startswith(str(dir_path)) for dir_path, _ in to_remove if dir_path.is_dir())`. -/
def coveredByDir (acc : List (List String × FKind)) (p : List String) : Bool :=
  acc.any (fun d => d.2 == FKind.dir && strStartsWith (pathStr p) (pathStr d.1))

/-- Append each glob result in order, skipping entries covered by an
already selected directory (the pattern of lines 124-131, 141-158 and
176-183). -/
def appendChecked (acc : List (List String × FKind)) (es : List FSEntry) :
    List (List String × FKind) :=
  es.foldl (fun a e => if coveredByDir a e.path then a else a ++ [(e.path, e.kind)]) acc

/-- The full rerun plan of `main` lines 107-186: the per-model directory
selections (hard-coded `siamese` pattern, appended with no check) and
result-file selections, then the cross-validation section when requested,
then the hyperparameter-optimization section when requested. -/
def planRerun (tree : List FSEntry) (models : List String)
    (rerun_cv rerun_hyperopt : Bool) : List (List String × FKind) :=
  let step1 := models.foldl (fun acc model =>
    let acc1 := acc ++ (tree.filter dirGlobPred).map (fun e => (e.path, e.kind))
    appendChecked acc1 (tree.filter (jsonGlobPred model))) []
  let step2 :=
    if rerun_cv then
      let withCv :=
        if tree.any (fun e => decide (e.path = ["cross_validation"])) then
          if models.isEmpty then step1 ++ [(["cross_validation"], FKind.dir)]
          else
            models.foldl (fun acc model =>
              let acc1 := appendChecked acc (tree.filter (cvDirPred model))
              appendChecked acc1 (tree.filter (cvJsonPred model))) step1
        else step1
      if tree.any (fun e => decide (e.path = ["cross_validation_report.json"])) then
        withCv ++ [(["cross_validation_report.json"], FKind.file)]
      else withCv
    else step1
  if rerun_hyperopt then
    if tree.any (fun e => decide (e.path = ["hyperparameter_optimization"])) then
      if models.isEmpty then step2 ++ [(["hyperparameter_optimization"], FKind.dir)]
      else
        models.foldl (fun acc model =>
          appendChecked acc (tree.filter (hyperPred model))) step2
    else step2
  else step2

/-- C4: requesting a rerun of `cnn` selects the directory named `siamese`
and not the directory named `cnn` — the directory glob pattern is
hard-coded, contradicting the in-code comment "find all directories
containing the model name" (the spec records this as a latent bug; the
failing behavior is evaluated here). -/
theorem rerun_dir_selection_bug :
    planRerun
      [⟨["enhanced_preprocessing", "dataset1", "cnn"], FKind.dir⟩,
       ⟨["enhanced_preprocessing", "dataset1", "siamese"], FKind.dir⟩]
      ["cnn"] false false
      = [(["enhanced_preprocessing", "dataset1", "siamese"], FKind.dir)] := by
  decide

/-- C5 as claimed: for every tree and target set the plan has no duplicate
path and no selected path descends from another selected path. -/
def rerunPlanInvariant : Prop :=
  ∀ (tree : List FSEntry) (models : List String) (rcv rh : Bool),
    ((planRerun tree models rcv rh).map Prod.fst).Nodup
    ∧ ∀ p q, p ∈ (planRerun tree models rcv rh).map Prod.fst →
        q ∈ (planRerun tree models rcv rh).map Prod.fst → p ≠ q → ¬ p <+: q

/-- C5 counterexample: with two requested architectures and a tree holding
one matching directory, the directory-selection loop (which performs no
deduplication) appends that same directory once per architecture, so its
path appears twice in the plan. -/
theorem rerun_plan_counterexample : ¬ rerunPlanInvariant := by
  intro h
  have := (h [⟨["a", "siamese"], FKind.dir⟩] ["cnn", "baseline"] false false).1
  exact absurd this (by decide)

/-- Number of occurrences of a selection in a plan. -/
def countOcc (x : List String × FKind) (l : List (List String × FKind)) : ℕ :=
  (l.filter (fun y => decide (y = x))).length

lemma countOcc_append (x : List String × FKind) (a b : List (List String × FKind)) :
    countOcc x (a ++ b) = countOcc x a + countOcc x b := by
  simp [countOcc, List.filter_append]

lemma countOcc_nil (x : List String × FKind) : countOcc x [] = 0 := rfl

lemma countOcc_cons (x y : List String × FKind) (l : List (List String × FKind)) :
    countOcc x (y :: l) = (if y = x then 1 else 0) + countOcc x l := by
  by_cases h : y = x
  · subst h
    simp only [countOcc, List.filter_cons, decide_True, if_true, List.length_cons]
    omega
  · simp only [countOcc, List.filter_cons]
    rw [if_neg (by simp [h]), if_neg h]
    omega

lemma countOcc_not_mem {x : List String × FKind} :
    ∀ {l : List (List String × FKind)}, x ∉ l → countOcc x l = 0 := by
  intro l
  induction l with
  | nil => intro _; rfl
  | cons y rest ih =>
    intro h
    have hxy : y ≠ x := fun he => h (by simp [he])
    rw [countOcc_cons, if_neg hxy, ih (fun h2 => h (List.mem_cons_of_mem _ h2))]

lemma countOcc_nodup_mem {x : List String × FKind} :
    ∀ {l : List (List String × FKind)}, l.Nodup → x ∈ l → countOcc x l = 1 := by
  intro l
  induction l with
  | nil => intro _ h; exact absurd h (List.not_mem_nil x)
  | cons y rest ih =>
    intro hnd hm
    obtain ⟨hy, hrest⟩ := List.nodup_cons.mp hnd
    rcases List.mem_cons.mp hm with heq | hm2
    · rw [countOcc_cons, if_pos heq.symm, countOcc_not_mem (heq ▸ hy)]
    · have hxy : y ≠ x := fun he => hy (he ▸ hm2)
      rw [countOcc_cons, if_neg hxy, ih hrest hm2]

lemma appendChecked_count_eq (x : List String × FKind) :
    ∀ (es : List FSEntry) (acc : List (List String × FKind)),
    (∀ e ∈ es, (e.path, e.kind) ≠ x) →
    countOcc x (appendChecked acc es) = countOcc x acc := by
  intro es
  induction es with
  | nil => intro acc _; rfl
  | cons e rest ih =>
    intro acc hne
    have htail : ∀ e2 ∈ rest, (e2.path, e2.kind) ≠ x :=
      fun e2 h2 => hne e2 (List.mem_cons_of_mem _ h2)
    have hx : (e.path, e.kind) ≠ x := hne e (List.mem_cons_self _ _)
    show countOcc x (appendChecked
      (if coveredByDir acc e.path = true then acc else acc ++ [(e.path, e.kind)]) rest)
      = countOcc x acc
    by_cases hc : coveredByDir acc e.path = true
    · rw [if_pos hc, ih acc htail]
    · rw [if_neg hc, ih _ htail, countOcc_append]
      have hs : countOcc x [(e.path, e.kind)] = 0 :=
        countOcc_not_mem (fun hmem => hx (List.mem_singleton.mp hmem).symm)
      rw [hs]
      omega

lemma appendChecked_nodup :
    ∀ (es : List FSEntry) (acc : List (List String × FKind)),
    acc.Nodup → (es.map (fun e => (e.path, e.kind))).Nodup →
    (∀ e ∈ es, (e.path, e.kind) ∉ acc) →
    (appendChecked acc es).Nodup := by
  intro es
  induction es with
  | nil => intro acc ha _ _; exact ha
  | cons e rest ih =>
    intro acc ha hes hdisj
    rw [List.map_cons, List.nodup_cons] at hes
    have htaildisj : ∀ e2 ∈ rest, (e2.path, e2.kind) ∉ acc :=
      fun e2 h2 => hdisj e2 (List.mem_cons_of_mem _ h2)
    show (appendChecked
      (if coveredByDir acc e.path = true then acc else acc ++ [(e.path, e.kind)]) rest).Nodup
    by_cases hc : coveredByDir acc e.path = true
    · rw [if_pos hc]
      exact ih acc ha hes.2 htaildisj
    · rw [if_neg hc]
      have hnotin : (e.path, e.kind) ∉ acc := hdisj e (List.mem_cons_self _ _)
      refine ih (acc ++ [(e.path, e.kind)]) ?_ hes.2 ?_
      · simp [List.nodup_append, ha, hnotin]
      · intro e2 h2 hbad
        rcases List.mem_append.mp hbad with h3 | h3
        · exact htaildisj e2 h2 h3
        · exact hes.1 ((List.mem_singleton.mp h3) ▸ List.mem_map.mpr ⟨e2, h2, rfl⟩)

lemma filter_map_pair_nodup (tree : List FSEntry) (p : FSEntry → Bool)
    (htree : (tree.map FSEntry.path).Nodup) :
    ((tree.filter p).map (fun e => (e.path, e.kind))).Nodup := by
  have hsub : List.Sublist ((tree.filter p).map FSEntry.path) (tree.map FSEntry.path) :=
    (List.filter_sublist tree).map FSEntry.path
  have hnd : ((tree.filter p).map FSEntry.path).Nodup := htree.sublist hsub
  have hcomp : ((tree.filter p).map (fun e => (e.path, e.kind))).map Prod.fst
      = (tree.filter p).map FSEntry.path := by
    rw [List.map_map]; rfl
  exact (hcomp ▸ hnd).of_map Prod.fst

lemma count_filter_map_pair (tree : List FSEntry) (p : FSEntry → Bool)
    (htree : (tree.map FSEntry.path).Nodup) (e : FSEntry) (he : e ∈ tree)
    (hp : p e = true) :
    countOcc (e.path, e.kind) ((tree.filter p).map (fun x => (x.path, x.kind))) = 1 := by
  have hmem : (e.path, e.kind) ∈ (tree.filter p).map (fun x => (x.path, x.kind)) :=
    List.mem_map.mpr ⟨e, List.mem_filter.mpr ⟨he, hp⟩, rfl⟩
  exact countOcc_nodup_mem (filter_map_pair_nodup tree p htree) hmem

lemma dir_json_disjoint (e : FSEntry) (model : String) (hd : dirGlobPred e = true) :
    jsonGlobPred model e = false := by
  simp only [dirGlobPred, Bool.and_eq_true, decide_eq_true_eq] at hd
  obtain ⟨_, hlast⟩ := hd
  simp only [jsonGlobPred, hlast]
  simp only [jsonStarMatch]
  have hns : ¬ (".json".data <:+ ("siamese" : String).data) := by decide
  simp [hns]

/-- C5 amended: the deduplication guard protects only the result-file,
cross-validation and hyperparameter entries (each is skipped when its
string form extends an already selected directory path); the per-model
directory selections are appended with no check at all, so over a
duplicate-free tree each entry matched by the (hard-coded) directory
pattern appears in the plan exactly once per requested architecture —
duplicated as soon as two architectures are requested — while with a single
requested architecture and both flags off the plan is duplicate-free. -/
theorem rerun_plan_spec (tree : List FSEntry) (models : List String)
    (htree : (tree.map FSEntry.path).Nodup) :
    (∀ e ∈ tree, dirGlobPred e = true →
      countOcc (e.path, e.kind) (planRerun tree models false false) = models.length)
    ∧ ∀ model, (planRerun tree [model] false false).Nodup := by
  constructor
  · intro e he hp
    have hcount : ∀ (ms : List String) (acc : List (List String × FKind)),
        countOcc (e.path, e.kind) (ms.foldl (fun acc model =>
          appendChecked (acc ++ (tree.filter dirGlobPred).map (fun x => (x.path, x.kind)))
            (tree.filter (jsonGlobPred model))) acc)
          = countOcc (e.path, e.kind) acc + ms.length := by
      intro ms
      induction ms with
      | nil => intro acc; simp
      | cons m rest ih =>
        intro acc
        simp only [List.foldl_cons]
        rw [ih, appendChecked_count_eq]
        · rw [countOcc_append, count_filter_map_pair tree dirGlobPred htree e he hp]
          simp only [List.length_cons]
          omega
        · intro e2 h2 hbad
          have hj : jsonGlobPred m e2 = true := (List.mem_filter.mp h2).2
          have h2t : e2 ∈ tree := (List.mem_filter.mp h2).1
          have hpe : e2.path = e.path := congrArg Prod.fst hbad
          have heq : e2 = e := List.inj_on_of_nodup_map htree h2t he hpe
          rw [heq] at hj
          rw [dir_json_disjoint e m hp] at hj
          cases hj
    simpa [planRerun, countOcc_nil] using hcount models []
  · intro model
    have hD := filter_map_pair_nodup tree dirGlobPred htree
    have hJ := filter_map_pair_nodup tree (jsonGlobPred model) htree
    have hplan : planRerun tree [model] false false
        = appendChecked (([] : List (List String × FKind))
              ++ (tree.filter dirGlobPred).map (fun x => (x.path, x.kind)))
            (tree.filter (jsonGlobPred model)) := by
      simp [planRerun]
    rw [hplan]
    refine appendChecked_nodup _ _ (by simpa using hD) hJ ?_
    intro e h2 hbad
    simp only [List.nil_append] at hbad
    obtain ⟨e2, h3, h4⟩ := List.mem_map.mp hbad
    have h2t : e ∈ tree := (List.mem_filter.mp h2).1
    have h3t : e2 ∈ tree := (List.mem_filter.mp h3).1
    have hpe : e2.path = e.path := congrArg Prod.fst h4
    have heq : e2 = e := List.inj_on_of_nodup_map htree h3t h2t hpe
    have hdp : dirGlobPred e = true := heq ▸ (List.mem_filter.mp h3).2
    have hjp : jsonGlobPred model e = true := (List.mem_filter.mp h2).2
    rw [dir_json_disjoint e model hdp] at hjp
    cases hjp

/-- Witness for the amended C5 theorem: one matching directory and two
requested architectures put that directory in the plan exactly twice. -/
theorem rerun_plan_spec_witness :
    (([⟨["a", "siamese"], FKind.dir⟩] : List FSEntry).map FSEntry.path).Nodup
    ∧ countOcc (["a", "siamese"], FKind.dir)
        (planRerun [⟨["a", "siamese"], FKind.dir⟩] ["cnn", "baseline"] false false) = 2 :=
  ⟨by decide, by
    have h := (rerun_plan_spec [⟨["a", "siamese"], FKind.dir⟩] ["cnn", "baseline"]
        (by decide)).1 ⟨["a", "siamese"], FKind.dir⟩ (by decide) (by decide)
    simpa using h⟩

end FaceRec
